import Mathlib

/-!
# Verification of the bloonsbench SOL save codec

Shallow embedding of `scripts/decode_saves.py` and
`scripts/encode_decoded_saves.py`.

Conventions of the embedding:
* Python `bytes` values and Python `str` values (which are only used here as
  carriers of UTF-8 byte sequences) are both modelled as `List Nat`, each
  element the value of one byte.  UTF-8 encode/decode between the two is the
  identity on this representation.
* Python exceptions become `Except PyExc`; `PyExc` distinguishes
  `ValueError`-class exceptions (which includes `binascii.Error`,
  `json.JSONDecodeError` and `UnicodeDecodeError`) from `zlib.error` and from
  other exception classes, because `_extract_value_b64` re-raises `ValueError`
  but swallows other exceptions in its integrity-guard `try` block.
  Exception message texts reproduce the source's messages, with per-value
  suffixes (such as the offending number) elided.
* Python stdlib routines that are not part of this repository
  (`base64.b64decode/b64encode`, `zlib.compress/decompress`,
  `json.loads/dumps`, `hashlib.sha256`) and the opaque universe of parsed
  JSON values are abstracted as section parameters; facts about them that a
  theorem needs (e.g. that decompress inverts compress) appear as explicit
  hypotheses.
* Machine integers: Python's ints are unbounded, so `Nat`/`Int` model them
  exactly; the 29-bit limits appear only through the explicit range checks
  the source performs.
-/

namespace BloonsBench

/-- Byte strings (Python `bytes`, and Python `str` via its UTF-8 bytes). -/
abbrev Bytes := List Nat

/-- ASCII string literal to its byte list (all literals used are ASCII). -/
def strBytes (s : String) : Bytes := s.data.map Char.toNat

/-- Python exception classes relevant to the scripts' `try/except` structure. -/
inductive PyExc where
  /-- `ValueError` and its subclasses (`binascii.Error`, `json.JSONDecodeError`,
      `UnicodeDecodeError`). -/
  | valueError (msg : String)
  /-- `zlib.error` (not a `ValueError`). -/
  | zlibError (msg : String)
  /-- any other class (`TypeError`, `KeyError`, `OverflowError`). -/
  | otherError (msg : String)
deriving DecidableEq, Repr

deriving instance DecidableEq for Except

/-- `buf[offset]` with Python's bounds check, raising the U29 underrun error
    (models lines 40-42 of `decode_saves.py`). -/
def getByteU29 (buf : Bytes) (off : Nat) : Except PyExc Nat :=
  if off < buf.length then .ok (buf.getD off 0)
  else .error (.valueError "Unexpected end of buffer while reading U29")

/-- `_decode_u29` (identical in `decode_saves.py` and
    `encode_decoded_saves.py`): the `for idx in range(4)` loop unrolled.
    Returns `(value, next offset)`. -/
def decodeU29 (buf : Bytes) (off : Nat) : Except PyExc (Nat × Nat) := do
  let b0 ← getByteU29 buf off
  let v0 := (0 <<< 7) ||| (b0 &&& 0x7F)
  if b0 &&& 0x80 = 0 then return (v0, off + 1)
  let b1 ← getByteU29 buf (off + 1)
  let v1 := (v0 <<< 7) ||| (b1 &&& 0x7F)
  if b1 &&& 0x80 = 0 then return (v1, off + 2)
  let b2 ← getByteU29 buf (off + 2)
  let v2 := (v1 <<< 7) ||| (b2 &&& 0x7F)
  if b2 &&& 0x80 = 0 then return (v2, off + 3)
  let b3 ← getByteU29 buf (off + 3)
  return ((v2 <<< 8) ||| b3, off + 4)

/-- `_encode_u29` from `encode_decoded_saves.py`. The argument is `Int`
    because the source checks `value < 0` explicitly; after that check the
    value is a natural number (written `value.toNat` at each use site). -/
def encodeU29 (value : Int) : Except PyExc Bytes :=
  if value < 0 ∨ value > 0x1FFFFFFF then .error (.valueError "U29 out of range")
  else if value.toNat < 0x80 then .ok [value.toNat]
  else if value.toNat < 0x4000 then
    .ok [(value.toNat >>> 7) ||| 0x80, value.toNat &&& 0x7F]
  else if value.toNat < 0x200000 then
    .ok [(value.toNat >>> 14) ||| 0x80, ((value.toNat >>> 7) &&& 0x7F) ||| 0x80,
         value.toNat &&& 0x7F]
  else
    .ok [((value.toNat >>> 22) &&& 0x7F) ||| 0x80,
         ((value.toNat >>> 15) &&& 0x7F) ||| 0x80,
         ((value.toNat >>> 8) &&& 0x7F) ||| 0x80, value.toNat &&& 0xFF]

/-- `_encode_amf3_int` from `encode_decoded_saves.py`. -/
def encodeAmf3Int (value : Int) : Except PyExc Bytes :=
  if value < -0x10000000 ∨ value > 0x0FFFFFFF then
    .error (.valueError "AMF3 int out of range")
  else encodeU29 (if value < 0 then value + 0x20000000 else value)

/-- The signed reinterpretation `_parse_amf3_int_after_key` applies to a
    decoded U29 (lines 144-146 of `encode_decoded_saves.py`). -/
def amf3SignedOfU29 (value : Nat) : Int :=
  if value &&& 0x10000000 ≠ 0 then (value : Int) - 0x20000000 else (value : Int)

/-- `_decode_amf3_string` (identical structure in both scripts): marker check,
    inline-reference check, length-prefixed slice. The UTF-8 decode of the
    slice is the identity in this byte-list model. Returns `(text, end)`. -/
def decodeAmf3String (buf : Bytes) (off : Nat) : Except PyExc (Bytes × Nat) :=
  if off ≥ buf.length ∨ buf.getD off 0 ≠ 0x06 then
    .error (.valueError "Expected AMF3 string marker 0x06")
  else do
    let (u29, pos) ← decodeU29 buf (off + 1)
    if u29 &&& 1 = 0 then
      .error (.valueError "AMF3 string uses reference mode; inline string expected")
    else
      let strlen := u29 >>> 1
      if pos + strlen > buf.length then
        .error (.valueError "String length exceeds buffer size")
      else .ok ((buf.drop pos).take strlen, pos + strlen)

/-- Python `bytes.find`: index of the first occurrence of `needle` as a
    contiguous substring of `hay` (`none` models the `-1` result). -/
def bFind (hay needle : Bytes) : Option Nat :=
  match hay with
  | [] => if needle.isEmpty then some 0 else none
  | b :: t => if needle.isPrefixOf (b :: t) then some 0 else (bFind t needle).map (· + 1)

/-- The literal key byte strings scanned for by both scripts. -/
def dataKeyBytes : Bytes := strBytes "data"

def glevelKeyBytes : Bytes := strBytes "glevel"

def gcashKeyBytes : Bytes := strBytes "gcash"

def gxpKeyBytes : Bytes := strBytes "gxp"

def gnumKeyBytes : Bytes := strBytes "gnum"

/-- `_parse_amf3_int_after_key` (identical in both scripts): scan for the key
    bytes; absent, or not followed by tag `0x04`, yields `none`; otherwise
    U29-decode after the tag and reinterpret as signed. -/
def parseAmf3IntAfterKey (sol key : Bytes) : Except PyExc (Option Int) :=
  match bFind sol key with
  | none => .ok none
  | some idx =>
    if idx + key.length ≥ sol.length ∨ sol.getD (idx + key.length) 0 ≠ 0x04 then
      .ok none
    else do
      let (value, _) ← decodeU29 sol (idx + key.length + 1)
      return some (amf3SignedOfU29 value)

/-- `_extract_outer_data_string` from `decode_saves.py`: scan for `b"data"`,
    then parse a marked AMF3 string right after the key bytes. -/
def extractOuterDataString (sol : Bytes) : Except PyExc Bytes :=
  match bFind sol dataKeyBytes with
  | none => .error (.valueError "SOL entry is missing 'data' field")
  | some idx => do
      let (s, _) ← decodeAmf3String sol (idx + 4)
      return s

/-- Lift an abstracted stdlib result, failing as a `ValueError`-class
    exception (`binascii.Error`, `json.JSONDecodeError`). -/
def liftValueErr {α : Type} (o : Option α) (msg : String) : Except PyExc α :=
  match o with
  | some a => .ok a
  | none => .error (.valueError msg)

/-- Lift an abstracted stdlib result, failing as `zlib.error`. -/
def liftZlibErr {α : Type} (o : Option α) (msg : String) : Except PyExc α :=
  match o with
  | some a => .ok a
  | none => .error (.zlibError msg)

/-- `raw_sol` sub-record of a decoded entry. -/
structure RawSolInfo where
  value_b64 : Bytes
  bytes_length : Nat
  sha256 : Bytes
deriving DecidableEq, Repr

/-- `outer_ud_fields` of a decoded entry: each an int or `null`. -/
structure OuterInts where
  glevel : Option Int
  gcash : Option Int
  gxp : Option Int
  gnum : Option Int
deriving DecidableEq, Repr

/-- `data_container` statistics of a decoded entry (the constant `encoding`
    string field is omitted). -/
structure DataContainerInfo where
  compressed_b64_length : Nat
  zlib_payload_length : Nat
  decompressed_length : Nat
  inner_json_length : Nat
deriving DecidableEq, Repr

/-- The success dictionary built by `decode_sol_entry`, over an abstract type
    `J` of parsed JSON values. -/
structure DecodedEntry (J : Type) where
  entry_key : Bytes
  raw_sol : RawSolInfo
  outer_ud_fields : OuterInts
  data_container : DataContainerInfo
  profile_json_text : Bytes
  profile : J

section ExternalFns

variable {J : Type}
variable (b64decode : Bytes → Option Bytes)
variable (b64encode : Bytes → Bytes)
variable (zlibDecompress : Bytes → Option Bytes)
variable (zlibCompress : Bytes → Bytes)
variable (jsonLoads : Bytes → Option J)
variable (jsonDumps : J → Bytes)
variable (normJson : J → Bytes)
variable (isDict : J → Bool)
variable (pyToInt : J → Option Int)
variable (jNull : J)
variable (jInt : Int → J)
variable (jOuterDict : J → J → J → J → J)
variable (sha256hex : Bytes → Bytes)

/-- `decode_sol_entry` from `decode_saves.py`. `b64decode`, `zlibDecompress`,
    `jsonLoads` and `sha256hex` abstract the Python stdlib calls. -/
def decodeSolEntry (key value_b64 : Bytes) : Except PyExc (DecodedEntry J) := do
  let sol ← liftValueErr (b64decode value_b64) "Invalid base64-encoded string"
  let dataB64 ← extractOuterDataString sol
  let zlibPayload ← liftValueErr (b64decode dataB64) "Invalid base64-encoded string"
  let inner ← liftZlibErr (zlibDecompress zlibPayload) "Error while decompressing data"
  let (profileJson, _) ← decodeAmf3String inner 0
  let profile ← liftValueErr (jsonLoads profileJson) "Invalid JSON"
  let gl ← parseAmf3IntAfterKey sol glevelKeyBytes
  let gc ← parseAmf3IntAfterKey sol gcashKeyBytes
  let gx ← parseAmf3IntAfterKey sol gxpKeyBytes
  let gn ← parseAmf3IntAfterKey sol gnumKeyBytes
  return { entry_key := key
           raw_sol := ⟨value_b64, sol.length, sha256hex sol⟩
           outer_ud_fields := ⟨gl, gc, gx, gn⟩
           data_container :=
             ⟨dataB64.length, zlibPayload.length, inner.length, profileJson.length⟩
           profile_json_text := profileJson
           profile := profile }

/-- `_extract_profile_from_raw` from `encode_decoded_saves.py`: the decode
    pipeline repeated on raw bytes for the integrity comparison. -/
def extractProfileFromRaw (value_b64 : Bytes) : Except PyExc (J × OuterInts) := do
  let sol ← liftValueErr (b64decode value_b64) "Invalid base64-encoded string"
  match bFind sol dataKeyBytes with
  | none => .error (.valueError "SOL entry is missing 'data' field")
  | some idx => do
    let (dataB64, _) ← decodeAmf3String sol (idx + 4)
    let zlibPayload ← liftValueErr (b64decode dataB64) "Invalid base64-encoded string"
    let inner ← liftZlibErr (zlibDecompress zlibPayload) "Error while decompressing data"
    let (profileJson, _) ← decodeAmf3String inner 0
    let profile ← liftValueErr (jsonLoads profileJson) "Invalid JSON"
    let gl ← parseAmf3IntAfterKey sol glevelKeyBytes
    let gc ← parseAmf3IntAfterKey sol gcashKeyBytes
    let gx ← parseAmf3IntAfterKey sol gxpKeyBytes
    let gn ← parseAmf3IntAfterKey sol gnumKeyBytes
    return (profile, ⟨gl, gc, gx, gn⟩)

/-- `entry_key.rsplit("/", 1)[-1]`: everything after the last `"/"` byte. -/
def lastSegment (key : Bytes) : Bytes :=
  (key.reverse.takeWhile (fun b => b != 47)).reverse

/-- `_encode_amf3_utf8_vr` from `encode_decoded_saves.py`. -/
def encodeAmf3Utf8VR (text : Bytes) (withMarker : Bool) : Except PyExc Bytes := do
  let lenEnc ← encodeU29 (((text.length <<< 1) ||| 1 : Nat) : Int)
  let payload := lenEnc ++ text
  return if withMarker then 0x06 :: payload else payload

/-- Python `int.to_bytes(width, "big")`, raising `OverflowError` when the
    value does not fit. -/
def toBytesBE (n width : Nat) : Except PyExc Bytes :=
  if n < 256 ^ width then
    .ok ((List.range width).map (fun i => n / 256 ^ (width - 1 - i) % 256))
  else .error (.otherError "OverflowError: int too big to convert")

/-- `outer_ud_fields` as seen by the encoder: a loaded JSON object whose four
    `g`-keys may each be absent. -/
structure EncOuter (J : Type) where
  glevel : Option J
  gcash : Option J
  gxp : Option J
  gnum : Option J

/-- `int(outer_ud_fields.get(k, 0))`: the default `0` needs no conversion;
    a present value goes through Python `int()`, abstracted by `pyToInt`
    (`none` models the `TypeError`/`ValueError` that `int()` raises on
    non-numeric values such as `None`). -/
def pyIntOfField (field : Option J) : Except PyExc Int :=
  match field with
  | none => .ok 0
  | some v =>
    match pyToInt v with
    | some k => .ok k
    | none => .error (.otherError "int() argument conversion failed")

/-- `_encode_sol_entry` from `encode_decoded_saves.py`: fresh construction of
    a SOL container. `b64encode`, `zlibCompress`, `jsonDumps` abstract the
    stdlib calls. -/
def encodeSolEntry (entry_key : Bytes) (profile : J) (outer : EncOuter J) :
    Except PyExc Bytes := do
  let profileJsonText := jsonDumps profile
  let inner ← encodeAmf3Utf8VR profileJsonText true
  let dataB64 := b64encode (zlibCompress inner)
  let soName := lastSegment entry_key
  let glevel ← pyIntOfField pyToInt outer.glevel
  let gcash ← pyIntOfField pyToInt outer.gcash
  let gxp ← pyIntOfField pyToInt outer.gxp
  let gnum ← pyIntOfField pyToInt outer.gnum
  let nameLen ← toBytesBE soName.length 2
  let dataKeyE ← encodeAmf3Utf8VR dataKeyBytes false
  let dataValE ← encodeAmf3Utf8VR dataB64 true
  let glevelKeyE ← encodeAmf3Utf8VR glevelKeyBytes false
  let glevelE ← encodeAmf3Int glevel
  let gcashKeyE ← encodeAmf3Utf8VR gcashKeyBytes false
  let gcashE ← encodeAmf3Int gcash
  let gxpKeyE ← encodeAmf3Utf8VR gxpKeyBytes false
  let gxpE ← encodeAmf3Int gxp
  let gnumKeyE ← encodeAmf3Utf8VR gnumKeyBytes false
  let gnumE ← encodeAmf3Int gnum
  let body : Bytes :=
    strBytes "TCSO" ++ [0x00, 0x04] ++ [0x00, 0x00, 0x00, 0x00] ++
    nameLen ++ soName ++ [0x00, 0x00, 0x00, 0x03] ++
    [0x05, 0x75, 0x64, 0x0A, 0x0B, 0x01] ++
    dataKeyE ++ dataValE ++
    glevelKeyE ++ [0x04] ++ glevelE ++
    gcashKeyE ++ [0x04] ++ gcashE ++
    gxpKeyE ++ [0x04] ++ gxpE ++
    gnumKeyE ++ [0x04] ++ gnumE ++
    [0x01, 0x00]
  let bodyLen ← toBytesBE body.length 4
  return b64encode ([0x00, 0xBF] ++ bodyLen ++ body)

/-- A Python `int | None` as the JSON value it serializes to. -/
def optIntJ : Option Int → J
  | none => jNull
  | some k => jInt k

/-- The `raw_outer` dictionary literal of `_extract_profile_from_raw` /
    the `outer_cmp` dictionary literal of `_extract_value_b64`, as a JSON
    value (both are built with the same four keys in the same order). -/
def outerIntsJ (ro : OuterInts) : J :=
  jOuterDict (optIntJ jNull jInt ro.glevel) (optIntJ jNull jInt ro.gcash)
    (optIntJ jNull jInt ro.gxp) (optIntJ jNull jInt ro.gnum)

/-- `outer_cmp` built from the entry's own `outer_ud_fields` object:
    `outer.get(k)` is `None` when the key is absent. -/
def outerCmpJ (o : EncOuter J) : J :=
  jOuterDict (o.glevel.getD jNull) (o.gcash.getD jNull)
    (o.gxp.getD jNull) (o.gnum.getD jNull)

/-- The three re-encode paths reported by `_extract_value_b64`. -/
inductive EncodeMode where
  | lossless
  | rebuilt
  | rebuilt_from_edits
deriving DecidableEq, Repr

/-- One entry dictionary as consumed by `_extract_value_b64`.
    `entry_key` is `some` iff `entry["entry_key"]` is present and a string;
    `raw_sol_value_b64` is `some v` iff `entry["raw_sol"]` is a dict whose
    `"value_b64"` is the string `v` (a dict whose `value_b64` is absent or
    not a string behaves exactly like an absent dict, so both collapse to
    `none`); `value_b64` is the top-level string field if present. -/
structure EncEntry (J : Type) where
  entry_key : Option Bytes
  raw_sol_value_b64 : Option Bytes
  value_b64 : Option Bytes
  profile : Option J
  outer_ud_fields : Option (EncOuter J)

/-- Lines 241-255 of `_extract_value_b64`: no usable raw bytes. -/
def extractMissingRaw (entry : EncEntry J) (allow_rebuild : Bool) :
    Except PyExc (Bytes × EncodeMode) :=
  if allow_rebuild = false then
    .error (.valueError "Entry is missing raw_sol.value_b64; cannot perform lossless encode. Re-decode with scripts/decode_saves.py or use --allow-rebuild.")
  else
    match entry.entry_key, entry.profile with
    | some k, some p =>
      if isDict p then
        (encodeSolEntry b64encode zlibCompress jsonDumps pyToInt k p
            (entry.outer_ud_fields.getD ⟨none, none, none, none⟩)).map
          (fun b => (b, EncodeMode.rebuilt))
      else .error (.valueError "Legacy rebuild requires entry_key and profile fields")
    | _, _ => .error (.valueError "Legacy rebuild requires entry_key and profile fields")

/-- Lines 237-239 of `_extract_value_b64`: fall through to a top-level
    `value_b64` string, else the missing-raw-bytes path. -/
def extractTopLevel (entry : EncEntry J) (allow_rebuild : Bool) :
    Except PyExc (Bytes × EncodeMode) :=
  match entry.value_b64 with
  | some v2 =>
    if v2 ≠ [] then .ok (v2, .lossless)
    else extractMissingRaw b64encode zlibCompress jsonDumps isDict pyToInt
      entry allow_rebuild
  | none => extractMissingRaw b64encode zlibCompress jsonDumps isDict pyToInt
      entry allow_rebuild

/-- `_extract_value_b64` from `encode_decoded_saves.py` (the integrity
    guard). In its `try` block only `ValueError`-class exceptions are
    re-raised; anything else (in practice `zlib.error`) preserves the
    lossless path. -/
def extractValueB64 (entry : EncEntry J) (allow_rebuild apply_edits : Bool) :
    Except PyExc (Bytes × EncodeMode) :=
  match entry.raw_sol_value_b64 with
  | some v =>
    if v ≠ [] then
      match entry.profile with
      | some p =>
        if apply_edits && isDict p then
          match entry.entry_key with
          | some k =>
            (encodeSolEntry b64encode zlibCompress jsonDumps pyToInt k p
                (entry.outer_ud_fields.getD ⟨none, none, none, none⟩)).map
              (fun b => (b, EncodeMode.rebuilt_from_edits))
          | none => .error (.otherError "KeyError: entry_key")
        else if isDict p then
          match extractProfileFromRaw b64decode zlibDecompress jsonLoads v with
          | .error (.valueError m) => .error (.valueError m)
          | .error _ => .ok (v, .lossless)
          | .ok (rawProfile, rawOuter) =>
            if normJson rawProfile ≠ normJson p then
              .error (.valueError "Entry profile differs from raw SOL payload. Use --apply-edits to rebuild from edited decoded JSON.")
            else
              match entry.outer_ud_fields with
              | some o =>
                if normJson (outerIntsJ jNull jInt jOuterDict rawOuter) ≠
                    normJson (outerCmpJ jNull jOuterDict o) then
                  .error (.valueError "Entry outer_ud_fields differ from raw SOL payload. Use --apply-edits to rebuild from edited decoded JSON.")
                else .ok (v, .lossless)
              | none => .ok (v, .lossless)
        else .ok (v, .lossless)
      | none => .ok (v, .lossless)
    else extractTopLevel b64encode zlibCompress jsonDumps isDict pyToInt
      entry allow_rebuild
  | none => extractTopLevel b64encode zlibCompress jsonDumps isDict pyToInt
    entry allow_rebuild

/-- The decoded-JSON document a successful `decode_sol_entry` run writes,
    as re-read by the encoder script: every field present, the four outer
    keys present (with JSON `null` for absent integers). -/
def encEntryOfDecoded (d : DecodedEntry J) : EncEntry J :=
  { entry_key := some d.entry_key
    raw_sol_value_b64 := some d.raw_sol.value_b64
    value_b64 := none
    profile := some d.profile
    outer_ud_fields := some
      ⟨some (optIntJ jNull jInt d.outer_ud_fields.glevel),
       some (optIntJ jNull jInt d.outer_ud_fields.gcash),
       some (optIntJ jNull jInt d.outer_ud_fields.gxp),
       some (optIntJ jNull jInt d.outer_ud_fields.gnum)⟩ }

end ExternalFns

/-! ### Entry loader and batch driver (`decode_saves.py`) -/

/-- Concrete JSON values as loaded by `json.loads` for the *input document*
    of the decode script (floats do not occur in the claims considered). -/
inductive JVal where
  | null
  | bool (b : Bool)
  | num (n : Int)
  | str (s : Bytes)
  | arr (xs : List JVal)
  | obj (kvs : List (Bytes × JVal))

/-- Python `dict.get` on a loaded JSON object (keys are unique). -/
def dictGet (kvs : List (Bytes × JVal)) (k : Bytes) : Option JVal :=
  match kvs with
  | [] => none
  | (k2, v) :: t => if k2 = k then some v else dictGet t k

/-- Python truthiness (`bool(x)`) of a loaded JSON value. -/
def truthy : JVal → Bool
  | .null => false
  | .bool b => b
  | .num n => n != 0
  | .str s => !s.isEmpty
  | .arr xs => !xs.isEmpty
  | .obj kvs => !kvs.isEmpty

/-- A `SaveEntry` as built by `_load_entries`. -/
structure SaveEntry where
  key : Bytes
  value_b64 : Bytes
  enabled : Bool
  meta : Option JVal

/-- One element of the editor-format `entries` list, as filtered by the loop
    body of `_load_entries` (lines 127-136 of `decode_saves.py`): `none`
    means the element is silently skipped. -/
def loadEditorEntry (includeDisabled : Bool) (raw : JVal) : Option SaveEntry :=
  match raw with
  | .obj m =>
    let enabled := truthy ((dictGet m (strBytes "enabled")).getD (.bool true))
    if !includeDisabled && !enabled then none
    else
      match dictGet m (strBytes "key"), dictGet m (strBytes "value_b64") with
      | some (.str k), some (.str v) =>
        some ⟨k, v, enabled, dictGet m (strBytes "meta")⟩
      | _, _ => none
  | _ => none

/-- The byte string `"bloonsbench-save-editor.v1"`. -/
def editorFormatBytes : Bytes := strBytes "bloonsbench-save-editor.v1"

/-- `payload.get("format") == EDITOR_FORMAT`. -/
def isEditorFormat (kvs : List (Bytes × JVal)) : Bool :=
  match dictGet kvs (strBytes "format") with
  | some (.str s) => s = editorFormatBytes
  | _ => false

/-- `_load_entries` from `decode_saves.py` (the file read and JSON parse have
    already happened; `payload` is the parsed document). Iterating a
    non-list `entries` value follows Python: a string iterates its
    characters and a dict its keys (each a non-dict, hence skipped), while
    `null`/`bool`/`int` raise `TypeError`. -/
def loadEntries (payload : JVal) (includeDisabled : Bool) :
    Except PyExc (String × List SaveEntry) :=
  match payload with
  | .obj kvs =>
    if isEditorFormat kvs then
      match (dictGet kvs (strBytes "entries")).getD (.arr []) with
      | .arr xs => .ok ("save_editor", xs.filterMap (loadEditorEntry includeDisabled))
      | .str _ => .ok ("save_editor", [])
      | .obj _ => .ok ("save_editor", [])
      | _ => .error (.otherError "TypeError: object is not iterable")
    else
      .ok ("raw_export", kvs.filterMap (fun kv =>
        match kv.2 with
        | .str s => some ⟨kv.1, s, true, none⟩
        | _ => none))
  | _ => .error (.valueError "Input must be a JSON object (export map or editor format)")

/-- One output entry of the decode batch loop: the success dictionary with
    `enabled`/`meta` attached, or the per-entry error record. -/
inductive DecOutEntry (J : Type) where
  | success (d : DecodedEntry J) (enabled : Bool) (meta : Option JVal)
  | failure (entry_key : Bytes) (enabled : Bool) (value_b64 : Bytes)
      (bytes_length : Option Nat) (error : String) (meta : Option JVal)

/-- `str(exc)`. -/
def excMsg : PyExc → String
  | .valueError m => m
  | .zlibError m => m
  | .otherError m => m

/-- `Except.isOk` specialized to the model's error type. -/
def isExcOk {α : Type} : Except PyExc α → Bool
  | .ok _ => true
  | .error _ => false

section BatchDriver

variable {J : Type}
variable (b64decode : Bytes → Option Bytes)
variable (zlibDecompress : Bytes → Option Bytes)
variable (jsonLoads : Bytes → Option J)
variable (sha256hex : Bytes → Bytes)

/-- The per-entry loop of `main` in `decode_saves.py` (lines 177-203): each
    failure becomes an error record with the raw byte length when the
    base64 decodes, and aborts the run in strict mode. Returns the output
    entry list and the failure tally. -/
def decodeEntriesLoop (strict : Bool) :
    List SaveEntry → Except PyExc (List (DecOutEntry J) × Nat)
  | [] => .ok ([], 0)
  | e :: rest =>
    match decodeSolEntry b64decode zlibDecompress jsonLoads sha256hex
        e.key e.value_b64 with
    | .ok d =>
      (decodeEntriesLoop strict rest).map
        (fun lk => (DecOutEntry.success d e.enabled e.meta :: lk.1, lk.2))
    | .error exc =>
      if strict then .error exc
      else
        (decodeEntriesLoop strict rest).map
          (fun lk =>
            (DecOutEntry.failure e.key e.enabled e.value_b64
              ((b64decode e.value_b64).map List.length) (excMsg exc) e.meta
              :: lk.1, lk.2 + 1))

/-- The aggregate document and exit status of a decode run. -/
structure DecodeRunOutput (J : Type) where
  decoded_entries : Nat
  decode_failures : Nat
  entries : List (DecOutEntry J)
  exit_code : Nat

/-- `main` of `decode_saves.py` after loading: the no-entries check, the
    batch loop, the aggregate `source` counters and the exit status. -/
def runDecodeMain (entries : List SaveEntry) (strict : Bool) :
    Except PyExc (DecodeRunOutput J) :=
  if entries.isEmpty then .error (.valueError "No save entries found in input")
  else
    (decodeEntriesLoop b64decode zlibDecompress jsonLoads sha256hex strict
        entries).map
      (fun lk => ⟨lk.1.length, lk.2, lk.1, if lk.2 = 0 then 0 else 1⟩)

/-- The number of loaded entries on which `decode_sol_entry` fails. -/
def decodeFailureCount (entries : List SaveEntry) : Nat :=
  (entries.filter (fun e =>
    !(isExcOk (decodeSolEntry b64decode zlibDecompress jsonLoads sha256hex
      e.key e.value_b64)))).length

end BatchDriver

/-! ## Bit-arithmetic helper lemmas -/

/-- `&&&` distributes over `|||` on `Nat`. -/
theorem land_lor_distrib (x y z : Nat) :
    (x ||| y) &&& z = (x &&& z) ||| (y &&& z) := by
  apply Nat.eq_of_testBit_eq
  intro i
  simp only [Nat.testBit_land, Nat.testBit_lor]
  cases x.testBit i <;> cases y.testBit i <;> cases z.testBit i <;> rfl

/-- `>>>` distributes over `|||` on `Nat`. -/
theorem shiftRight_lor_distrib (x y k : Nat) :
    (x ||| y) >>> k = (x >>> k) ||| (y >>> k) := by
  apply Nat.eq_of_testBit_eq
  intro i
  simp [Nat.testBit_shiftRight, Nat.testBit_lor]

/-- Or-ing disjoint bit ranges is addition. -/
theorem shiftLeft_lor_eq_add (a b k : Nat) (hb : b < 2 ^ k) :
    (a <<< k) ||| b = a * 2 ^ k + b := by
  have hmod : ((a <<< k) ||| b) % 2 ^ k = b := by
    have h1 : ((a <<< k) ||| b) &&& (2 ^ k - 1) = b := by
      rw [land_lor_distrib, Nat.and_pow_two_sub_one_eq_mod,
        Nat.and_pow_two_sub_one_eq_mod, Nat.shiftLeft_eq, Nat.mul_mod_left,
        Nat.mod_eq_of_lt hb, Nat.zero_or]
    rw [← Nat.and_pow_two_sub_one_eq_mod, h1]
  have hdiv : ((a <<< k) ||| b) / 2 ^ k = a := by
    have h2 : ((a <<< k) ||| b) >>> k = a := by
      rw [shiftRight_lor_distrib, Nat.shiftLeft_eq, Nat.shiftRight_eq_div_pow,
        Nat.shiftRight_eq_div_pow, Nat.mul_div_cancel _ (Nat.two_pow_pos k),
        Nat.div_eq_of_lt hb, Nat.or_zero]
    rw [← Nat.shiftRight_eq_div_pow, h2]
  have h3 := Nat.div_add_mod ((a <<< k) ||| b) (2 ^ k)
  rw [hdiv, hmod, Nat.mul_comm (2 ^ k) a] at h3
  omega

/-- Masking a value below the mask's power of two is the identity. -/
theorem land_mask_of_lt (a k : Nat) (h : a < 2 ^ k) : a &&& (2 ^ k - 1) = a :=
  Nat.and_pow_two_sub_one_of_lt_two_pow h

/-- A value below `2^k` has bit `k` clear. -/
theorem land_two_pow_of_lt (a k : Nat) (h : a < 2 ^ k) : a &&& 2 ^ k = 0 := by
  apply Nat.eq_of_testBit_eq
  intro i
  simp only [Nat.testBit_land, Nat.zero_testBit]
  rcases eq_or_ne i k with rfl | hne
  · rw [Nat.testBit_lt_two_pow h]
    exact Bool.false_and _
  · rw [Nat.testBit_two_pow_of_ne (Ne.symm hne)]
    exact Bool.and_false _

/-- Setting the high bit makes the high-bit test succeed. -/
theorem lor_two_pow_land_ne (x k : Nat) : (x ||| 2 ^ k) &&& 2 ^ k ≠ 0 := by
  intro h
  have := congrArg (fun y => Nat.testBit y k) h
  simp only [Nat.testBit_land, Nat.testBit_lor, Nat.testBit_two_pow_self,
    Bool.or_true, Bool.true_and, Nat.zero_testBit] at this
  exact Bool.noConfusion this

/-! ## Monad and numeral helper lemmas -/

@[simp] theorem ok_bind {α β : Type} (a : α) (f : α → Except PyExc β) :
    (Except.ok a : Except PyExc α) >>= f = f a := rfl

@[simp] theorem error_bind {α β : Type} (e : PyExc) (f : α → Except PyExc β) :
    (Except.error e : Except PyExc α) >>= f = .error e := rfl

@[simp] theorem pure_eq_ok {α : Type} (a : α) :
    (pure a : Except PyExc α) = .ok a := rfl

theorem and127_eq_mod (x : Nat) : x &&& 127 = x % 128 := by
  have h := Nat.and_pow_two_sub_one_eq_mod x 7
  norm_num at h
  exact h

theorem and255_eq_mod (x : Nat) : x &&& 255 = x % 256 := by
  have h := Nat.and_pow_two_sub_one_eq_mod x 8
  norm_num at h
  exact h

theorem and1_eq_mod (x : Nat) : x &&& 1 = x % 2 := Nat.and_one_is_mod x

theorem or128_and127 (x : Nat) : (x ||| 128) &&& 127 = x % 128 := by
  rw [land_lor_distrib, and127_eq_mod,
    show (128 : Nat) &&& 127 = 0 from by decide, Nat.or_zero]

theorem or128_and128_ne (x : Nat) : (x ||| 128) &&& 128 ≠ 0 := by
  have h := lor_two_pow_land_ne x 7
  norm_num at h
  exact h

theorem and128_eq_zero {x : Nat} (h : x < 128) : x &&& 128 = 0 := by
  have h2 := land_two_pow_of_lt x 7 (by norm_num; omega)
  norm_num at h2
  exact h2

theorem mod128_and128_eq_zero (x : Nat) : (x % 128) &&& 128 = 0 :=
  and128_eq_zero (Nat.mod_lt _ (by norm_num))

theorem orShift7_mod (a x : Nat) : (a <<< 7) ||| (x % 128) = a * 128 + x % 128 := by
  have h := shiftLeft_lor_eq_add a (x % 128) 7 (by norm_num [Nat.mod_lt])
  norm_num at h ⊢
  exact h

theorem orShift8_mod (a x : Nat) : (a <<< 8) ||| (x % 256) = a * 256 + x % 256 := by
  have h := shiftLeft_lor_eq_add a (x % 256) 8 (by norm_num [Nat.mod_lt])
  norm_num at h ⊢
  exact h

theorem shr_eq_div (x k : Nat) : x >>> k = x / 2 ^ k :=
  Nat.shiftRight_eq_div_pow x k

/-- Reading one byte of a list sitting after a prefix. -/
theorem getByteU29_append {l : Bytes} (pre suf : Bytes) {i : Nat}
    (h : i < l.length) :
    getByteU29 (pre ++ l ++ suf) (pre.length + i) = .ok (l.getD i 0) := by
  have hlen : pre.length + i < (pre ++ l ++ suf).length := by
    simp only [List.length_append]
    omega
  rw [getByteU29, if_pos hlen]
  congr 1
  rw [List.append_assoc, List.getD_eq_getElem?_getD, List.getD_eq_getElem?_getD,
    List.getElem?_append_right (Nat.le_add_right _ _), Nat.add_sub_cancel_left,
    List.getElem?_append_left h]

/-- Decoding an encoded U29 anywhere inside a larger buffer recovers the
    value and consumes exactly the encoded bytes. -/
theorem decodeU29_encodeU29 {n : Nat} {enc : Bytes} (pre suf : Bytes)
    (he : encodeU29 (n : Int) = .ok enc) :
    decodeU29 (pre ++ enc ++ suf) pre.length = .ok (n, pre.length + enc.length) := by
  have hn : n ≤ 0x1FFFFFFF := by
    by_contra hgt
    rw [encodeU29, if_pos (Or.inr (by exact_mod_cast Nat.lt_of_not_le hgt))] at he
    exact Except.noConfusion he
  rw [encodeU29,
    if_neg (by push_neg; exact ⟨Int.natCast_nonneg n, by exact_mod_cast hn⟩),
    Int.toNat_natCast] at he
  by_cases h1 : n < 0x80
  · rw [if_pos h1] at he
    obtain rfl : [n] = enc := Except.ok.inj he
    have hb0 : getByteU29 (pre ++ [n] ++ suf) pre.length = .ok n :=
      getByteU29_append (i := 0) pre suf (by norm_num)
    simp only [decodeU29, hb0, ok_bind]
    rw [if_pos (and128_eq_zero h1)]
    simp only [pure_eq_ok, ok_bind, Nat.zero_shiftLeft, Nat.zero_or,
      and127_eq_mod, Except.ok.injEq, Prod.mk.injEq, List.length_cons,
      List.length_nil]
    exact ⟨Nat.mod_eq_of_lt h1, trivial⟩
  rw [if_neg h1] at he
  by_cases h2 : n < 0x4000
  · rw [if_pos h2] at he
    obtain rfl : [(n >>> 7) ||| 0x80, n &&& 0x7F] = enc := Except.ok.inj he
    have hb0 : getByteU29 (pre ++ [(n >>> 7) ||| 0x80, n &&& 0x7F] ++ suf)
        pre.length = .ok ((n >>> 7) ||| 0x80) :=
      getByteU29_append (i := 0) pre suf (by norm_num)
    have hb1 : getByteU29 (pre ++ [(n >>> 7) ||| 0x80, n &&& 0x7F] ++ suf)
        (pre.length + 1) = .ok (n &&& 0x7F) :=
      getByteU29_append (i := 1) pre suf (by norm_num)
    simp only [decodeU29, hb0, ok_bind]
    rw [if_neg (or128_and128_ne _)]
    simp only [hb1, ok_bind]
    rw [if_pos (by rw [and127_eq_mod]; exact mod128_and128_eq_zero n)]
    simp only [pure_eq_ok, ok_bind, Nat.zero_shiftLeft, Nat.zero_or,
      or128_and127]
    simp only [and127_eq_mod]
    simp only [orShift7_mod, shr_eq_div, Except.ok.injEq, Prod.mk.injEq,
      List.length_cons, List.length_nil]
    norm_num
    omega
  rw [if_neg h2] at he
  by_cases h3 : n < 0x200000
  · rw [if_pos h3] at he
    obtain rfl :
        [(n >>> 14) ||| 0x80, ((n >>> 7) &&& 0x7F) ||| 0x80, n &&& 0x7F] = enc :=
      Except.ok.inj he
    have hb0 : getByteU29
        (pre ++ [(n >>> 14) ||| 0x80, ((n >>> 7) &&& 0x7F) ||| 0x80, n &&& 0x7F] ++ suf)
        pre.length = .ok ((n >>> 14) ||| 0x80) :=
      getByteU29_append (i := 0) pre suf (by norm_num)
    have hb1 : getByteU29
        (pre ++ [(n >>> 14) ||| 0x80, ((n >>> 7) &&& 0x7F) ||| 0x80, n &&& 0x7F] ++ suf)
        (pre.length + 1) = .ok (((n >>> 7) &&& 0x7F) ||| 0x80) :=
      getByteU29_append (i := 1) pre suf (by norm_num)
    have hb2 : getByteU29
        (pre ++ [(n >>> 14) ||| 0x80, ((n >>> 7) &&& 0x7F) ||| 0x80, n &&& 0x7F] ++ suf)
        (pre.length + 2) = .ok (n &&& 0x7F) :=
      getByteU29_append (i := 2) pre suf (by norm_num)
    simp only [decodeU29, hb0, ok_bind]
    rw [if_neg (or128_and128_ne _)]
    simp only [hb1, ok_bind]
    rw [if_neg (or128_and128_ne _)]
    simp only [hb2, ok_bind]
    rw [if_pos (by rw [and127_eq_mod]; exact mod128_and128_eq_zero n)]
    simp only [pure_eq_ok, ok_bind, Nat.zero_shiftLeft, Nat.zero_or,
      or128_and127]
    simp only [and127_eq_mod]
    simp only [orShift7_mod, shr_eq_div, Except.ok.injEq, Prod.mk.injEq,
      List.length_cons, List.length_nil]
    norm_num
    omega
  rw [if_neg h3] at he
  obtain rfl :
      [((n >>> 22) &&& 0x7F) ||| 0x80, ((n >>> 15) &&& 0x7F) ||| 0x80,
       ((n >>> 8) &&& 0x7F) ||| 0x80, n &&& 0xFF] = enc :=
    Except.ok.inj he
  have hb0 : getByteU29
      (pre ++ [((n >>> 22) &&& 0x7F) ||| 0x80, ((n >>> 15) &&& 0x7F) ||| 0x80,
        ((n >>> 8) &&& 0x7F) ||| 0x80, n &&& 0xFF] ++ suf)
      pre.length = .ok (((n >>> 22) &&& 0x7F) ||| 0x80) :=
    getByteU29_append (i := 0) pre suf (by norm_num)
  have hb1 : getByteU29
      (pre ++ [((n >>> 22) &&& 0x7F) ||| 0x80, ((n >>> 15) &&& 0x7F) ||| 0x80,
        ((n >>> 8) &&& 0x7F) ||| 0x80, n &&& 0xFF] ++ suf)
      (pre.length + 1) = .ok (((n >>> 15) &&& 0x7F) ||| 0x80) :=
    getByteU29_append (i := 1) pre suf (by norm_num)
  have hb2 : getByteU29
      (pre ++ [((n >>> 22) &&& 0x7F) ||| 0x80, ((n >>> 15) &&& 0x7F) ||| 0x80,
        ((n >>> 8) &&& 0x7F) ||| 0x80, n &&& 0xFF] ++ suf)
      (pre.length + 2) = .ok (((n >>> 8) &&& 0x7F) ||| 0x80) :=
    getByteU29_append (i := 2) pre suf (by norm_num)
  have hb3 : getByteU29
      (pre ++ [((n >>> 22) &&& 0x7F) ||| 0x80, ((n >>> 15) &&& 0x7F) ||| 0x80,
        ((n >>> 8) &&& 0x7F) ||| 0x80, n &&& 0xFF] ++ suf)
      (pre.length + 3) = .ok (n &&& 0xFF) :=
    getByteU29_append (i := 3) pre suf (by norm_num)
  simp only [decodeU29, hb0, ok_bind]
  rw [if_neg (or128_and128_ne _)]
  simp only [hb1, ok_bind]
  rw [if_neg (or128_and128_ne _)]
  simp only [hb2, ok_bind]
  rw [if_neg (or128_and128_ne _)]
  simp only [hb3, ok_bind]
  simp only [pure_eq_ok, ok_bind, Nat.zero_shiftLeft, Nat.zero_or,
    or128_and127]
  simp only [and127_eq_mod, and255_eq_mod]
  simp only [orShift7_mod, orShift8_mod, shr_eq_div, Except.ok.injEq,
    Prod.mk.injEq, List.length_cons, List.length_nil]
  norm_num
  omega

/-! ## Scan and parse helper lemmas -/

/-- `bytes.find` locates a needle sitting at the very front. -/
theorem bFind_self_prefix (key rest : Bytes) (hr : rest ≠ []) :
    bFind (key ++ rest) key = some 0 := by
  have hpre : key.isPrefixOf (key ++ rest) = true := by
    rw [List.isPrefixOf_iff_prefix]
    exact List.prefix_append _ _
  rcases hk : key ++ rest with _ | ⟨b, t⟩
  · exact absurd (List.append_eq_nil.mp hk).2 hr
  · rw [hk] at hpre
    rw [bFind, if_pos hpre]

/-- Indexing just past a prefix. -/
theorem getD_append_self (pre : Bytes) (b : Nat) (rest : Bytes) :
    (pre ++ b :: rest).getD pre.length 0 = b := by
  rw [List.getD_eq_getElem?_getD, List.getElem?_append_right (le_refl _),
    Nat.sub_self]
  simp

theorem and_two_pow_ne_zero_iff (m k : Nat) :
    m &&& 2 ^ k ≠ 0 ↔ m.testBit k = true := by
  constructor
  · intro h
    by_contra hbit
    refine h (Nat.eq_of_testBit_eq fun j => ?_)
    simp only [Nat.testBit_land, Nat.zero_testBit]
    rcases eq_or_ne j k with rfl | hne
    · rw [Bool.eq_false_iff.mpr hbit]
      exact Bool.false_and _
    · rw [Nat.testBit_two_pow_of_ne (Ne.symm hne)]
      exact Bool.and_false _
  · intro h h0
    have := congrArg (fun y => Nat.testBit y k) h0
    simp only [Nat.testBit_land, Nat.testBit_two_pow_self, Bool.and_true, h,
      Nat.zero_testBit] at this
    exact Bool.noConfusion this

/-- On 29-bit values, the source's sign reinterpretation subtracts `2^29`
    exactly when bit `2^28` is set. -/
theorem amf3SignedOfU29_biased (m : Nat) (hm : m < 2 ^ 29) :
    amf3SignedOfU29 m =
      if 2 ^ 28 ≤ m then (m : Int) - 2 ^ 29 else (m : Int) := by
  have hbit : m &&& 0x10000000 ≠ 0 ↔ 2 ^ 28 ≤ m := by
    have hdiv : m / 2 ^ 28 % 2 = 1 ↔ 2 ^ 28 ≤ m := by omega
    rw [show (0x10000000 : Nat) = 2 ^ 28 from by norm_num,
      and_two_pow_ne_zero_iff, Nat.testBit_to_div_mod, decide_eq_true_eq, hdiv]
  rw [amf3SignedOfU29]
  rcases Nat.lt_or_ge m (2 ^ 28) with h | h
  · rw [if_neg (by rw [hbit]; omega), if_neg (by omega)]
  · rw [if_pos (hbit.mpr h), if_pos h]
    norm_num

/-- `_encode_u29` succeeds on every in-range value, with the minimal
    1/2/3/4-byte length for the magnitude. -/
theorem encodeU29_ok (m : Nat) (hm : m ≤ 0x1FFFFFFF) :
    ∃ enc, encodeU29 (m : Int) = .ok enc ∧
      enc.length = (if m < 0x80 then 1 else if m < 0x4000 then 2
        else if m < 0x200000 then 3 else 4) := by
  rw [encodeU29,
    if_neg (by push_neg; exact ⟨Int.natCast_nonneg m, by exact_mod_cast hm⟩),
    Int.toNat_natCast]
  by_cases h1 : m < 0x80
  · rw [if_pos h1, if_pos h1]
    exact ⟨_, rfl, rfl⟩
  rw [if_neg h1, if_neg h1]
  by_cases h2 : m < 0x4000
  · rw [if_pos h2, if_pos h2]
    exact ⟨_, rfl, rfl⟩
  rw [if_neg h2, if_neg h2]
  by_cases h3 : m < 0x200000
  · rw [if_pos h3, if_pos h3]
    exact ⟨_, rfl, rfl⟩
  rw [if_neg h3, if_neg h3]
  exact ⟨_, rfl, rfl⟩

/-- The failure of the key scan yields `null` with no exception. -/
theorem parseAmf3IntAfterKey_none {sol key : Bytes}
    (hfind : bFind sol key = none) :
    parseAmf3IntAfterKey sol key = .ok none := by
  simp only [parseAmf3IntAfterKey, hfind]

/-- A successful key scan followed by the `0x04` tag and a decodable U29
    yields the signed value. -/
theorem parseAmf3IntAfterKey_found {sol key : Bytes} {idx : Nat}
    (hfind : bFind sol key = some idx)
    (hlt : idx + key.length < sol.length)
    (htag : sol.getD (idx + key.length) 0 = 0x04)
    {v c : Nat} (hdec : decodeU29 sol (idx + key.length + 1) = .ok (v, c)) :
    parseAmf3IntAfterKey sol key = .ok (some (amf3SignedOfU29 v)) := by
  simp only [parseAmf3IntAfterKey, hfind]
  rw [if_neg (by push_neg; exact ⟨hlt, htag⟩)]
  simp only [hdec, ok_bind, pure_eq_ok]

/-! ## Claim C3 -/

/-- **C3.** For every `n` in `[0, 0x1FFFFFFF]`, U29-decoding the U29-encoding
    of `n` at offset 0 yields `(n, number of bytes produced)`, and the
    encoding has the minimal 1/2/3/4-byte length for `n`'s magnitude; for
    every `n` outside that range (negative or above `0x1FFFFFFF`), U29
    encoding fails with the `ValueOutOfRange` error. -/
theorem u29_roundtrip_minimal_and_range (n : Int) :
    (0 ≤ n ∧ n ≤ 0x1FFFFFFF →
      ∃ enc, encodeU29 n = .ok enc ∧
        decodeU29 enc 0 = .ok (n.toNat, enc.length) ∧
        enc.length = (if n < 0x80 then 1 else if n < 0x4000 then 2
          else if n < 0x200000 then 3 else 4)) ∧
    (n < 0 ∨ 0x1FFFFFFF < n →
      encodeU29 n = .error (.valueError "U29 out of range")) := by
  constructor
  · rintro ⟨h0, h1⟩
    obtain ⟨m, rfl⟩ := Int.eq_ofNat_of_zero_le h0
    have hm : m ≤ 0x1FFFFFFF := by exact_mod_cast h1
    obtain ⟨enc, he, hlen⟩ := encodeU29_ok m hm
    refine ⟨enc, he, ?_, ?_⟩
    · have h := decodeU29_encodeU29 [] [] he
      simpa using h
    · rw [hlen]
      by_cases hc1 : m < 0x80
      · rw [if_pos hc1, if_pos (show (m : Int) < 0x80 by exact_mod_cast hc1)]
      rw [if_neg hc1, if_neg (show ¬((m : Int) < 0x80) by exact_mod_cast hc1)]
      by_cases hc2 : m < 0x4000
      · rw [if_pos hc2, if_pos (show (m : Int) < 0x4000 by exact_mod_cast hc2)]
      rw [if_neg hc2, if_neg (show ¬((m : Int) < 0x4000) by exact_mod_cast hc2)]
      by_cases hc3 : m < 0x200000
      · rw [if_pos hc3,
          if_pos (show (m : Int) < 0x200000 by exact_mod_cast hc3)]
      rw [if_neg hc3, if_neg (show ¬((m : Int) < 0x200000) by exact_mod_cast hc3)]
  · intro h
    rw [encodeU29, if_pos h]

/-- Witness for C3: the in-range input `300` and the out-of-range input `-7`
    both satisfy the respective hypotheses. -/
theorem u29_roundtrip_minimal_and_range_witness :
    ((0 : Int) ≤ 300 ∧ (300 : Int) ≤ 0x1FFFFFFF) ∧
    ((-7 : Int) < 0 ∨ (0x1FFFFFFF : Int) < -7) ∧
    (∃ enc, encodeU29 300 = .ok enc ∧
      decodeU29 enc 0 = .ok ((300 : Int).toNat, enc.length) ∧
      enc.length = (if (300 : Int) < 0x80 then 1
        else if (300 : Int) < 0x4000 then 2
        else if (300 : Int) < 0x200000 then 3 else 4)) ∧
    encodeU29 (-7) = .error (.valueError "U29 out of range") :=
  ⟨⟨by norm_num, by norm_num⟩, Or.inl (by norm_num),
    (u29_roundtrip_minimal_and_range 300).1 ⟨by norm_num, by norm_num⟩,
    (u29_roundtrip_minimal_and_range (-7)).2 (Or.inl (by norm_num))⟩

/-! ## Claim C4 -/

/-- **C4.** For every integer `n` in `[-2^28, 2^28-1]`, AMF3 signed-integer
    encoding (add `2^29` to negative `n`, then U29-encode) followed by
    decoding (U29-decode, then subtract `2^29` when bit `2^28` is set)
    yields `n` — in particular the key scanner recovers `n` right after a
    `0x04` tag; for every `n` outside the range, encoding fails with the
    `ValueOutOfRange` error. -/
theorem amf3_int_roundtrip_and_range (n : Int) :
    (-0x10000000 ≤ n ∧ n ≤ 0x0FFFFFFF →
      ∃ enc m, encodeAmf3Int n = .ok enc ∧
        decodeU29 enc 0 = .ok (m, enc.length) ∧
        amf3SignedOfU29 m = n ∧
        ∀ key : Bytes,
          parseAmf3IntAfterKey (key ++ 0x04 :: enc) key = .ok (some n)) ∧
    (n < -0x10000000 ∨ 0x0FFFFFFF < n →
      encodeAmf3Int n = .error (.valueError "AMF3 int out of range")) := by
  constructor
  · rintro ⟨h0, h1⟩
    have hne : encodeAmf3Int n =
        encodeU29 (if n < 0 then n + 0x20000000 else n) := by
      rw [encodeAmf3Int, if_neg (by omega)]
    set b : Int := if n < 0 then n + 0x20000000 else n with hbdef
    have hb0 : 0 ≤ b := by rw [hbdef]; split_ifs <;> omega
    have hb1 : b ≤ 0x1FFFFFFF := by rw [hbdef]; split_ifs <;> omega
    have hcast : ((b.toNat : Int)) = b := Int.toNat_of_nonneg hb0
    obtain ⟨enc, he0, _⟩ := encodeU29_ok b.toNat (by omega)
    have he : encodeAmf3Int n = .ok enc := by
      rw [hne, ← hcast]
      exact he0
    have hdec0 : decodeU29 enc 0 = .ok (b.toNat, enc.length) := by
      have h := decodeU29_encodeU29 [] [] he0
      simpa using h
    have hsigned : amf3SignedOfU29 b.toNat = n := by
      rw [amf3SignedOfU29_biased b.toNat (by omega)]
      split_ifs with hge
      · rw [hbdef] at hcast
        split_ifs at hcast with hneg
        · omega
        · omega
      · rw [hbdef] at hcast
        split_ifs at hcast with hneg
        · omega
        · omega
    refine ⟨enc, b.toNat, he, hdec0, hsigned, ?_⟩
    intro key
    have henc : enc ≠ [] := by
      intro hnil
      rw [hnil] at hdec0
      simp only [decodeU29, getByteU29] at hdec0
      simp at hdec0
    have hfind : bFind (key ++ 0x04 :: enc) key = some 0 :=
      bFind_self_prefix key (0x04 :: enc) (by simp)
    have htag : (key ++ 0x04 :: enc).getD (0 + key.length) 0 = 0x04 := by
      rw [Nat.zero_add]
      exact getD_append_self key 0x04 enc
    have hlt : 0 + key.length < (key ++ 0x04 :: enc).length := by
      simp only [List.length_append, List.length_cons]
      omega
    have hdec : decodeU29 (key ++ 0x04 :: enc) (0 + key.length + 1) =
        .ok (b.toNat, key.length + 1 + enc.length) := by
      have h := decodeU29_encodeU29 (key ++ [0x04]) [] he0
      simpa [List.append_assoc, Nat.add_assoc] using h
    rw [parseAmf3IntAfterKey_found hfind hlt htag hdec, hsigned]
  · intro h
    rw [encodeAmf3Int, if_pos h]

/-- Witness for C4: the negative in-range input `-3` and the out-of-range
    input `2^28` both satisfy the respective hypotheses. -/
theorem amf3_int_roundtrip_and_range_witness :
    ((-0x10000000 : Int) ≤ -3 ∧ (-3 : Int) ≤ 0x0FFFFFFF) ∧
    ((0x10000000 : Int) < -0x10000000 ∨ (0x0FFFFFFF : Int) < 0x10000000) ∧
    (∃ enc m, encodeAmf3Int (-3) = .ok enc ∧
      decodeU29 enc 0 = .ok (m, enc.length) ∧
      amf3SignedOfU29 m = -3 ∧
      ∀ key : Bytes,
        parseAmf3IntAfterKey (key ++ 0x04 :: enc) key = .ok (some (-3))) ∧
    encodeAmf3Int 0x10000000 = .error (.valueError "AMF3 int out of range") :=
  ⟨⟨by norm_num, by norm_num⟩, Or.inr (by norm_num),
    (amf3_int_roundtrip_and_range (-3)).1 ⟨by norm_num, by norm_num⟩,
    (amf3_int_roundtrip_and_range 0x10000000).2 (Or.inr (by norm_num))⟩

/-! ## Inversion of a successful decode -/

/-- A successful `decode_sol_entry` run determines every intermediate value
    of its pipeline and the exact shape of the returned dictionary. -/
theorem decodeSolEntry_inv {J : Type}
    {b64decode zlibDecompress : Bytes → Option Bytes}
    {jsonLoads : Bytes → Option J} {sha256hex : Bytes → Bytes}
    {key v : Bytes} {d : DecodedEntry J}
    (h : decodeSolEntry b64decode zlibDecompress jsonLoads sha256hex key v
      = .ok d) :
    ∃ sol dataB64 zp inner pj pjEnd profile gl gc gx gn,
      b64decode v = some sol ∧
      extractOuterDataString sol = .ok dataB64 ∧
      b64decode dataB64 = some zp ∧
      zlibDecompress zp = some inner ∧
      decodeAmf3String inner 0 = .ok (pj, pjEnd) ∧
      jsonLoads pj = some profile ∧
      parseAmf3IntAfterKey sol glevelKeyBytes = .ok gl ∧
      parseAmf3IntAfterKey sol gcashKeyBytes = .ok gc ∧
      parseAmf3IntAfterKey sol gxpKeyBytes = .ok gx ∧
      parseAmf3IntAfterKey sol gnumKeyBytes = .ok gn ∧
      d = { entry_key := key
            raw_sol := ⟨v, sol.length, sha256hex sol⟩
            outer_ud_fields := ⟨gl, gc, gx, gn⟩
            data_container :=
              ⟨dataB64.length, zp.length, inner.length, pj.length⟩
            profile_json_text := pj
            profile := profile } := by
  rw [decodeSolEntry] at h
  cases hsol : b64decode v with
  | none => rw [hsol] at h; simp [liftValueErr] at h
  | some sol =>
  rw [hsol] at h
  simp only [liftValueErr, ok_bind] at h
  cases hdata : extractOuterDataString sol with
  | error e => rw [hdata] at h; simp at h
  | ok dataB64 =>
  rw [hdata] at h
  simp only [ok_bind] at h
  cases hzp : b64decode dataB64 with
  | none => rw [hzp] at h; simp [liftValueErr] at h
  | some zp =>
  rw [hzp] at h
  simp only [liftValueErr, ok_bind] at h
  cases hinner : zlibDecompress zp with
  | none => rw [hinner] at h; simp [liftZlibErr] at h
  | some inner =>
  rw [hinner] at h
  simp only [liftZlibErr, ok_bind] at h
  cases hpj : decodeAmf3String inner 0 with
  | error e => rw [hpj] at h; simp at h
  | ok pjp =>
  obtain ⟨pj, pjEnd⟩ := pjp
  rw [hpj] at h
  simp only [ok_bind] at h
  cases hprof : jsonLoads pj with
  | none => rw [hprof] at h; simp [liftValueErr] at h
  | some profile =>
  rw [hprof] at h
  simp only [liftValueErr, ok_bind] at h
  cases hgl : parseAmf3IntAfterKey sol glevelKeyBytes with
  | error e => rw [hgl] at h; simp at h
  | ok gl =>
  rw [hgl] at h
  simp only [ok_bind] at h
  cases hgc : parseAmf3IntAfterKey sol gcashKeyBytes with
  | error e => rw [hgc] at h; simp at h
  | ok gc =>
  rw [hgc] at h
  simp only [ok_bind] at h
  cases hgx : parseAmf3IntAfterKey sol gxpKeyBytes with
  | error e => rw [hgx] at h; simp at h
  | ok gx =>
  rw [hgx] at h
  simp only [ok_bind] at h
  cases hgn : parseAmf3IntAfterKey sol gnumKeyBytes with
  | error e => rw [hgn] at h; simp at h
  | ok gn =>
  rw [hgn] at h
  simp only [ok_bind, pure_eq_ok] at h
  exact ⟨sol, dataB64, zp, inner, pj, pjEnd, profile, gl, gc, gx, gn,
    rfl, hdata, hzp, hinner, hpj, hprof, hgl, hgc, hgx, hgn,
    (Except.ok.inj h).symm⟩

/-! ## Claim C5 -/

/-- **C5.** For each of the keys `glevel, gcash, gxp, gnum`, the decoder
    scans the SOL bytes for the literal key bytes; if absent the decoded
    field is `null` with no error, and if found with the tag `0x04` right
    after the key bytes, the signed AMF3 integer that follows becomes the
    field's value; `decode_sol_entry` records exactly these scan results as
    `outer_ud_fields`. -/
theorem outer_key_scan (sol key : Bytes)
    (_hkey : key ∈ [glevelKeyBytes, gcashKeyBytes, gxpKeyBytes, gnumKeyBytes]) :
    (bFind sol key = none → parseAmf3IntAfterKey sol key = .ok none) ∧
    (∀ idx value c, bFind sol key = some idx →
      idx + key.length < sol.length →
      sol.getD (idx + key.length) 0 = 0x04 →
      decodeU29 sol (idx + key.length + 1) = .ok (value, c) →
      parseAmf3IntAfterKey sol key = .ok (some (amf3SignedOfU29 value))) ∧
    (∀ (J : Type) (b64decode zlibDecompress : Bytes → Option Bytes)
        (jsonLoads : Bytes → Option J) (sha256hex : Bytes → Bytes)
        (k v : Bytes) (d : DecodedEntry J),
      b64decode v = some sol →
      decodeSolEntry b64decode zlibDecompress jsonLoads sha256hex k v
        = .ok d →
      parseAmf3IntAfterKey sol glevelKeyBytes = .ok d.outer_ud_fields.glevel ∧
      parseAmf3IntAfterKey sol gcashKeyBytes = .ok d.outer_ud_fields.gcash ∧
      parseAmf3IntAfterKey sol gxpKeyBytes = .ok d.outer_ud_fields.gxp ∧
      parseAmf3IntAfterKey sol gnumKeyBytes = .ok d.outer_ud_fields.gnum) := by
  refine ⟨fun hfind => parseAmf3IntAfterKey_none hfind,
    fun idx value c hfind hlt htag hdec =>
      parseAmf3IntAfterKey_found hfind hlt htag hdec,
    ?_⟩
  intro J b64decode zlibDecompress jsonLoads sha256hex k v d hsol hdec
  obtain ⟨sol', _, _, _, _, _, _, gl, gc, gx, gn, hsol', _, _, _, _, _,
    hgl, hgc, hgx, hgn, hd⟩ := decodeSolEntry_inv hdec
  obtain rfl : sol' = sol := by rw [hsol] at hsol'; exact (Option.some.inj hsol').symm
  rw [hd]
  exact ⟨hgl, hgc, hgx, hgn⟩

/-- Witness for C5: the key `glevel` is absent from the empty SOL buffer
    (field is `null`, no error), and is found at index 0 of
    `b"glevel" ++ [0x04, 0x05]` (field is `5`). -/
theorem outer_key_scan_witness :
    (glevelKeyBytes ∈
      [glevelKeyBytes, gcashKeyBytes, gxpKeyBytes, gnumKeyBytes]) ∧
    (bFind [] glevelKeyBytes = none ∧
      parseAmf3IntAfterKey [] glevelKeyBytes = .ok none) ∧
    (bFind (glevelKeyBytes ++ [0x04, 0x05]) glevelKeyBytes = some 0 ∧
      parseAmf3IntAfterKey (glevelKeyBytes ++ [0x04, 0x05]) glevelKeyBytes
        = .ok (some (amf3SignedOfU29 5))) := by
  refine ⟨by simp, ⟨by decide, ?_⟩, ⟨by decide, ?_⟩⟩
  · exact (outer_key_scan [] glevelKeyBytes (by simp)).1 (by decide)
  · exact (outer_key_scan (glevelKeyBytes ++ [0x04, 0x05]) glevelKeyBytes
      (by simp)).2.1 0 5 (glevelKeyBytes ++ [0x04, 0x05]).length
      (by decide) (by decide) (by decide) (by decide)

/-- Inversion of a successful `_extract_outer_data_string`. -/
theorem extractOuterDataString_inv {sol dataB64 : Bytes}
    (h : extractOuterDataString sol = .ok dataB64) :
    ∃ idx e, bFind sol dataKeyBytes = some idx ∧
      decodeAmf3String sol (idx + 4) = .ok (dataB64, e) := by
  rw [extractOuterDataString] at h
  cases hfind : bFind sol dataKeyBytes with
  | none => simp only [hfind] at h; exact Except.noConfusion h
  | some idx =>
    simp only [hfind] at h
    cases hstr : decodeAmf3String sol (idx + 4) with
    | error e => simp only [hstr, error_bind] at h; exact Except.noConfusion h
    | ok pr =>
      obtain ⟨s, e⟩ := pr
      simp only [hstr, ok_bind, pure_eq_ok] at h
      obtain rfl : s = dataB64 := Except.ok.inj h
      exact ⟨idx, e, rfl, hstr⟩

section GuardTheorems

variable {J : Type}
variable (b64decode : Bytes → Option Bytes)
variable (b64encode : Bytes → Bytes)
variable (zlibDecompress : Bytes → Option Bytes)
variable (zlibCompress : Bytes → Bytes)
variable (jsonLoads : Bytes → Option J)
variable (jsonDumps : J → Bytes)
variable (normJson : J → Bytes)
variable (isDict : J → Bool)
variable (pyToInt : J → Option Int)
variable (jNull : J)
variable (jInt : Int → J)
variable (jOuterDict : J → J → J → J → J)
variable (sha256hex : Bytes → Bytes)

/-- The integrity comparison re-decode agrees with the original decode: both
    run the same pipeline on the same bytes. -/
theorem extractProfileFromRaw_of_decode {key v : Bytes} {d : DecodedEntry J}
    (hdec : decodeSolEntry b64decode zlibDecompress jsonLoads sha256hex key v
      = .ok d) :
    extractProfileFromRaw b64decode zlibDecompress jsonLoads v
      = .ok (d.profile, d.outer_ud_fields) := by
  obtain ⟨sol, dataB64, zp, inner, pj, pjEnd, profile, gl, gc, gx, gn,
    hsol, hdata, hzp, hinner, hpj, hprof, hgl, hgc, hgx, hgn, hd⟩ :=
    decodeSolEntry_inv hdec
  obtain ⟨idx, e, hfind, hstr⟩ := extractOuterDataString_inv hdata
  rw [extractProfileFromRaw, hsol]
  simp only [liftValueErr, ok_bind, hfind, hstr, hzp, hinner, hpj, hprof,
    hgl, hgc, hgx, hgn, liftZlibErr, pure_eq_ok, hd]

/-! ## Claim C1 -/

/-- **C1.** Every successfully decoded SOL blob whose `profile` and
    `outer_ud_fields` have not been edited re-encodes via the lossless path
    to exactly the original `value_b64` string. (`b64decode [] = some []` is
    the stdlib fact that the base64 decode of the empty string is empty.) -/
theorem lossless_reencode_roundtrip (key v : Bytes) (d : DecodedEntry J)
    (allow_rebuild : Bool)
    (hempty : b64decode [] = some [])
    (hdec : decodeSolEntry b64decode zlibDecompress jsonLoads sha256hex key v
      = .ok d) :
    extractValueB64 b64decode b64encode zlibDecompress zlibCompress jsonLoads
      jsonDumps normJson isDict pyToInt jNull jInt jOuterDict
      (encEntryOfDecoded jNull jInt d) allow_rebuild false
      = .ok (v, .lossless) := by
  obtain ⟨sol, dataB64, zp, inner, pj, pjEnd, profile, gl, gc, gx, gn,
    hsol, hdata, hzp, hinner, hpj, hprof, hgl, hgc, hgx, hgn, hd⟩ :=
    decodeSolEntry_inv hdec
  have hv : v ≠ [] := by
    intro hnil
    rw [hnil, hempty] at hsol
    obtain rfl : sol = [] := (Option.some.inj hsol).symm
    rw [extractOuterDataString,
      show bFind [] dataKeyBytes = none from by decide] at hdata
    exact Except.noConfusion hdata
  have hextract := extractProfileFromRaw_of_decode b64decode zlibDecompress
    jsonLoads sha256hex hdec
  subst hd
  simp only [extractValueB64, encEntryOfDecoded]
  rw [if_pos hv]
  rw [if_neg (by simp : ¬((false && isDict profile) = true))]
  cases hdict : isDict profile with
  | true =>
    rw [if_pos rfl]
    simp only [hextract]
    rw [if_neg (fun hne => hne rfl)]
    rw [if_neg (fun hne =>
      hne (by simp only [outerIntsJ, outerCmpJ, Option.getD_some]))]
  | false =>
    rw [if_neg Bool.false_ne_true]

/-- Witness for C1: a seven-byte SOL blob decodes successfully under
    concrete instantiations of the stdlib parameters, and the unedited
    decoded entry re-encodes losslessly to the original string. -/
theorem lossless_reencode_roundtrip_witness :
    (fun s : Bytes =>
      if s = [86] then some [100, 97, 116, 97, 6, 3, 65]
      else if s = [65] then some [122]
      else if s = [] then some ([] : Bytes) else none) [] = some [] ∧
    ∃ d : DecodedEntry (Option Int),
      decodeSolEntry
        (fun s : Bytes =>
          if s = [86] then some [100, 97, 116, 97, 6, 3, 65]
          else if s = [65] then some [122]
          else if s = [] then some ([] : Bytes) else none)
        (fun s : Bytes => if s = [122] then some [6, 3, 53] else none)
        (fun s : Bytes => if s = [53] then some (some (5 : Int)) else none)
        (fun _ : Bytes => ([] : Bytes)) [107] [86] = .ok d ∧
      extractValueB64
        (fun s : Bytes =>
          if s = [86] then some [100, 97, 116, 97, 6, 3, 65]
          else if s = [65] then some [122]
          else if s = [] then some ([] : Bytes) else none)
        id
        (fun s : Bytes => if s = [122] then some [6, 3, 53] else none)
        id
        (fun s : Bytes => if s = [53] then some (some (5 : Int)) else none)
        (fun _ : Option Int => ([] : Bytes))
        (fun _ : Option Int => ([] : Bytes))
        (fun _ : Option Int => true)
        (fun _ : Option Int => (none : Option Int))
        (none : Option Int)
        (fun k : Int => some k)
        (fun _ _ _ _ : Option Int => (none : Option Int))
        (encEntryOfDecoded (none : Option Int) (fun k : Int => some k) d)
        false false = .ok ([86], .lossless) := by
  refine ⟨rfl, ?_⟩
  refine ⟨_, rfl, ?_⟩
  exact lossless_reencode_roundtrip
    (fun s : Bytes =>
      if s = [86] then some [100, 97, 116, 97, 6, 3, 65]
      else if s = [65] then some [122]
      else if s = [] then some ([] : Bytes) else none)
    id
    (fun s : Bytes => if s = [122] then some [6, 3, 53] else none)
    id
    (fun s : Bytes => if s = [53] then some (some (5 : Int)) else none)
    (fun _ : Option Int => ([] : Bytes))
    (fun _ : Option Int => ([] : Bytes))
    (fun _ : Option Int => true)
    (fun _ : Option Int => (none : Option Int))
    (none : Option Int)
    (fun k : Int => some k)
    (fun _ _ _ _ : Option Int => (none : Option Int))
    (fun _ : Bytes => ([] : Bytes))
    [107] [86] _ false rfl rfl

end GuardTheorems

/-! ## Encoder helper lemmas -/

/-- `_encode_amf3_int` succeeds on every in-range value. -/
theorem encodeAmf3Int_ok (n : Int) (h0 : -0x10000000 ≤ n) (h1 : n ≤ 0x0FFFFFFF) :
    ∃ enc, encodeAmf3Int n = .ok enc := by
  rw [encodeAmf3Int, if_neg (by omega)]
  set b : Int := if n < 0 then n + 0x20000000 else n with hbdef
  have hb0 : 0 ≤ b := by rw [hbdef]; split_ifs <;> omega
  have hb1 : b ≤ 0x1FFFFFFF := by rw [hbdef]; split_ifs <;> omega
  obtain ⟨enc, he, _⟩ := encodeU29_ok b.toNat (by omega)
  rw [Int.toNat_of_nonneg hb0] at he
  exact ⟨enc, he⟩

/-- Inversion of a successful marked-string encode. -/
theorem encodeAmf3Utf8VR_true_inv {text r : Bytes}
    (h : encodeAmf3Utf8VR text true = .ok r) :
    ∃ lenEnc, encodeU29 ((((text.length <<< 1) ||| 1 : Nat) : Int)) = .ok lenEnc ∧
      r = 0x06 :: (lenEnc ++ text) := by
  rw [encodeAmf3Utf8VR] at h
  cases hl : encodeU29 ((((text.length <<< 1) ||| 1 : Nat) : Int)) with
  | error e => rw [hl] at h; exact Except.noConfusion h
  | ok lenEnc =>
    rw [hl] at h
    simp only [ok_bind, pure_eq_ok, if_true] at h
    exact ⟨lenEnc, rfl, (Except.ok.inj h).symm⟩

/-- A successful `int.to_bytes(width)` has exactly `width` bytes. -/
theorem toBytesBE_ok_length {n width : Nat} {r : Bytes}
    (h : toBytesBE n width = .ok r) : r.length = width := by
  rw [toBytesBE] at h
  split_ifs at h with hlt
  rw [← Except.ok.inj h]
  simp

theorem orShift1_and1 (L : Nat) : ((L <<< 1) ||| 1) &&& 1 = 1 := by
  rw [land_lor_distrib]
  have h1 : (L <<< 1) &&& 1 = 0 := by
    rw [and1_eq_mod, Nat.shiftLeft_eq, pow_one, Nat.mul_mod_left]
  rw [h1, Nat.zero_or]
  decide

theorem orShift1_shr1 (L : Nat) : ((L <<< 1) ||| 1) >>> 1 = L := by
  have h := shiftLeft_lor_eq_add L 1 1 (by norm_num)
  rw [h, Nat.shiftRight_eq_div_pow, pow_one]
  omega

/-- Decoding a marked AMF3 string written by `_encode_amf3_utf8_vr` at its
    own offset inside a larger buffer recovers the text. -/
theorem decodeAmf3String_at (text lenEnc pre suf : Bytes)
    (hlen : encodeU29 ((((text.length <<< 1) ||| 1 : Nat) : Int)) = .ok lenEnc) :
    decodeAmf3String (pre ++ (0x06 :: (lenEnc ++ text)) ++ suf) pre.length
      = .ok (text, pre.length + 1 + lenEnc.length + text.length) := by
  have hassoc : pre ++ (0x06 :: (lenEnc ++ text)) ++ suf
      = pre ++ 0x06 :: (lenEnc ++ (text ++ suf)) := by
    simp
  have hget : (pre ++ (0x06 :: (lenEnc ++ text)) ++ suf).getD pre.length 0
      = 0x06 := by
    rw [hassoc]
    exact getD_append_self pre 0x06 (lenEnc ++ (text ++ suf))
  have hlenb : pre.length < (pre ++ (0x06 :: (lenEnc ++ text)) ++ suf).length := by
    simp only [List.length_append, List.length_cons]
    omega
  rw [decodeAmf3String, if_neg (by push_neg; exact ⟨hlenb, hget⟩)]
  have hdec : decodeU29 (pre ++ (0x06 :: (lenEnc ++ text)) ++ suf)
      (pre.length + 1)
      = .ok ((text.length <<< 1) ||| 1, pre.length + 1 + lenEnc.length) := by
    rw [show pre ++ (0x06 :: (lenEnc ++ text)) ++ suf
        = (pre ++ [0x06]) ++ lenEnc ++ (text ++ suf) from by simp,
      show pre.length + 1 = (pre ++ [0x06]).length from by simp]
    exact decodeU29_encodeU29 (pre ++ [0x06]) (text ++ suf) hlen
  simp only [hdec, ok_bind]
  rw [if_neg (by rw [orShift1_and1]; exact one_ne_zero), orShift1_shr1]
  have hslice : ((pre ++ (0x06 :: (lenEnc ++ text)) ++ suf).drop
      (pre.length + 1 + lenEnc.length)).take text.length = text := by
    have e3 : pre ++ (0x06 :: (lenEnc ++ text)) ++ suf
        = ((pre ++ [0x06]) ++ lenEnc) ++ (text ++ suf) := by simp
    have e4 : ((pre ++ [0x06]) ++ lenEnc).length
        = pre.length + 1 + lenEnc.length := by
      simp only [List.length_append, List.length_cons, List.length_nil,
        Nat.zero_add]
    rw [e3, ← e4, List.drop_left, List.take_left]
  rw [if_neg (by
    simp only [List.length_append, List.length_cons]
    push_neg
    omega)]
  rw [hslice]

/-- Inversion of a successful `Except` bind. -/
theorem bind_ok_inv {α β : Type} {m : Except PyExc α} {f : α → Except PyExc β}
    {out : β} (h : (m >>= f) = .ok out) : ∃ a, m = .ok a ∧ f a = .ok out := by
  cases m with
  | error e => exact Except.noConfusion h
  | ok a => exact ⟨a, rfl, h⟩

/-- `_decode_u29` cannot underrun when four bytes are available: every
    branch of the unrolled loop returns after at most four reads. -/
theorem decodeU29_ok_of_room (buf : Bytes) (off : Nat)
    (h : off + 3 < buf.length) :
    ∃ v c, decodeU29 buf off = .ok (v, c) := by
  have g0 : getByteU29 buf off = .ok (buf.getD off 0) := by
    rw [getByteU29, if_pos (by omega)]
  have g1 : getByteU29 buf (off + 1) = .ok (buf.getD (off + 1) 0) := by
    rw [getByteU29, if_pos (by omega)]
  have g2 : getByteU29 buf (off + 2) = .ok (buf.getD (off + 2) 0) := by
    rw [getByteU29, if_pos (by omega)]
  have g3 : getByteU29 buf (off + 3) = .ok (buf.getD (off + 3) 0) := by
    rw [getByteU29, if_pos (by omega)]
  simp only [decodeU29, g0, g1, g2, g3, ok_bind, pure_eq_ok]
  by_cases c0 : buf.getD off 0 &&& 0x80 = 0
  · rw [if_pos c0]
    exact ⟨_, _, rfl⟩
  rw [if_neg c0]
  by_cases c1 : buf.getD (off + 1) 0 &&& 0x80 = 0
  · rw [if_pos c1]
    exact ⟨_, _, rfl⟩
  rw [if_neg c1]
  by_cases c2 : buf.getD (off + 2) 0 &&& 0x80 = 0
  · rw [if_pos c2]
    exact ⟨_, _, rfl⟩
  rw [if_neg c2]
  exact ⟨_, _, rfl⟩

/-- `_decode_u29` cannot underrun at any in-range offset of a buffer ending
    in the end-of-object trailer `0x01 0x00`: near the end, one of the two
    trailer bytes (both with the high bit clear) terminates the loop. -/
theorem decodeU29_ok_of_trailer (pre : Bytes) (off : Nat)
    (hoff : off < pre.length + 2) :
    ∃ v c, decodeU29 (pre ++ [0x01, 0x00]) off = .ok (v, c) := by
  have hlen : (pre ++ [0x01, 0x00]).length = pre.length + 2 := by simp
  have g1v : (pre ++ [0x01, 0x00]).getD pre.length 0 = 0x01 :=
    getD_append_self pre 0x01 [0x00]
  have g0v : (pre ++ [0x01, 0x00]).getD (pre.length + 1) 0 = 0x00 := by
    have h := getD_append_self (pre ++ [0x01]) 0x00 []
    simpa using h
  rcases Nat.lt_or_ge (off + 3) (pre.length + 2) with hroom | htail
  · exact decodeU29_ok_of_room (pre ++ [0x01, 0x00]) off (by rw [hlen]; omega)
  have hoff3 : off + 1 = pre.length ∨ off = pre.length ∨ off = pre.length + 1 := by
    omega
  rcases hoff3 with h | h | h
  · have g0 : getByteU29 (pre ++ [0x01, 0x00]) off
        = .ok ((pre ++ [0x01, 0x00]).getD off 0) := by
      rw [getByteU29, if_pos (by rw [hlen]; omega)]
    have g1 : getByteU29 (pre ++ [0x01, 0x00]) (off + 1) = .ok 0x01 := by
      rw [getByteU29, if_pos (by rw [hlen]; omega), h, g1v]
    simp only [decodeU29, g0, g1, ok_bind, pure_eq_ok]
    by_cases c0 : (pre ++ [0x01, 0x00]).getD off 0 &&& 0x80 = 0
    · rw [if_pos c0]
      exact ⟨_, _, rfl⟩
    · rw [if_neg c0, if_pos (by decide : (0x01 : Nat) &&& 0x80 = 0)]
      exact ⟨_, _, rfl⟩
  · have g0 : getByteU29 (pre ++ [0x01, 0x00]) off = .ok 0x01 := by
      rw [getByteU29, if_pos (by rw [hlen]; omega), h, g1v]
    simp only [decodeU29, g0, ok_bind, pure_eq_ok]
    rw [if_pos (by decide : (0x01 : Nat) &&& 0x80 = 0)]
    exact ⟨_, _, rfl⟩
  · have g0 : getByteU29 (pre ++ [0x01, 0x00]) off = .ok 0x00 := by
      rw [getByteU29, if_pos (by rw [hlen]; omega), h, g0v]
    simp only [decodeU29, g0, ok_bind, pure_eq_ok]
    rw [if_pos (by decide : (0x00 : Nat) &&& 0x80 = 0)]
    exact ⟨_, _, rfl⟩

/-- On a buffer ending in the trailer `0x01 0x00`, the integer key scan of
    `_parse_amf3_int_after_key` never raises, for any key: the final byte
    `0x00` is not the `0x04` tag, so any U29 read it starts lies in range
    and terminates before the end of the buffer. -/
theorem parseAmf3IntAfterKey_ok_of_trailer (pre key : Bytes) :
    ∃ r, parseAmf3IntAfterKey (pre ++ [0x01, 0x00]) key = .ok r := by
  cases hfind : bFind (pre ++ [0x01, 0x00]) key with
  | none => exact ⟨none, parseAmf3IntAfterKey_none hfind⟩
  | some idx =>
    by_cases hc : idx + key.length ≥ (pre ++ [0x01, 0x00]).length ∨
        (pre ++ [0x01, 0x00]).getD (idx + key.length) 0 ≠ 0x04
    · refine ⟨none, ?_⟩
      simp only [parseAmf3IntAfterKey, hfind]
      rw [if_pos hc]
    · push_neg at hc
      obtain ⟨hlt, htag⟩ := hc
      have hlen : (pre ++ [0x01, 0x00]).length = pre.length + 2 := by simp
      have hne : idx + key.length ≠ pre.length + 1 := by
        intro he
        rw [he] at htag
        have h0 : (pre ++ [0x01, 0x00]).getD (pre.length + 1) 0 = 0x00 := by
          have h := getD_append_self (pre ++ [0x01]) 0x00 []
          simpa using h
        rw [h0] at htag
        exact absurd htag (by decide)
      rw [hlen] at hlt
      obtain ⟨v, c, hdec⟩ := decodeU29_ok_of_trailer pre
        (idx + key.length + 1) (by omega)
      exact ⟨some (amf3SignedOfU29 v),
        parseAmf3IntAfterKey_found hfind (by rw [hlen]; omega) htag hdec⟩

section RebuildTheorems

variable {J : Type}
variable (b64decode : Bytes → Option Bytes)
variable (b64encode : Bytes → Bytes)
variable (zlibDecompress : Bytes → Option Bytes)
variable (zlibCompress : Bytes → Bytes)
variable (jsonLoads : Bytes → Option J)
variable (jsonDumps : J → Bytes)
variable (pyToInt : J → Option Int)
variable (sha256hex : Bytes → Bytes)

/-- Re-decoding a rebuilt SOL container recovers the profile it was built
    from, given the stdlib round-trip facts and that the `data` key scan
    lands on its canonical position (`29` header bytes plus the object
    name). The four integer key scans need no hypothesis: a rebuilt
    container ends in the trailer `0x01 0x00`, on which they never raise. -/
theorem decodeSolEntry_of_rebuilt
    (hB : ∀ x, b64decode (b64encode x) = some x)
    (hZ : ∀ x, zlibDecompress (zlibCompress x) = some x)
    {p : J} (hJ : jsonLoads (jsonDumps p) = some p)
    {ek k2 : Bytes} {outer : EncOuter J} {out : Bytes}
    (henc : encodeSolEntry b64encode zlibCompress jsonDumps pyToInt ek p outer
      = .ok out)
    (hfind : ∀ raw, b64decode out = some raw →
      bFind raw dataKeyBytes = some (29 + (lastSegment ek).length)) :
    ∃ d', decodeSolEntry b64decode zlibDecompress jsonLoads sha256hex k2 out
        = .ok d' ∧ d'.profile = p := by
  rw [encodeSolEntry] at henc
  obtain ⟨inner, hinner, henc⟩ := bind_ok_inv henc
  obtain ⟨gl, _hgl, henc⟩ := bind_ok_inv henc
  obtain ⟨gc, _hgc, henc⟩ := bind_ok_inv henc
  obtain ⟨gx, _hgx, henc⟩ := bind_ok_inv henc
  obtain ⟨gn, _hgn, henc⟩ := bind_ok_inv henc
  obtain ⟨nameLen, hname, henc⟩ := bind_ok_inv henc
  obtain ⟨dataKeyE, hdkey, henc⟩ := bind_ok_inv henc
  obtain ⟨dataValE, hdval, henc⟩ := bind_ok_inv henc
  obtain ⟨glevelKeyE, _hk1, henc⟩ := bind_ok_inv henc
  obtain ⟨glevelE, _he1, henc⟩ := bind_ok_inv henc
  obtain ⟨gcashKeyE, _hk2, henc⟩ := bind_ok_inv henc
  obtain ⟨gcashE, _he2, henc⟩ := bind_ok_inv henc
  obtain ⟨gxpKeyE, _hk3, henc⟩ := bind_ok_inv henc
  obtain ⟨gxpE, _he3, henc⟩ := bind_ok_inv henc
  obtain ⟨gnumKeyE, _hk4, henc⟩ := bind_ok_inv henc
  obtain ⟨gnumE, _he4, henc⟩ := bind_ok_inv henc
  obtain ⟨bodyLen, hblen, henc⟩ := bind_ok_inv henc
  rw [pure_eq_ok] at henc
  obtain rfl := (Except.ok.inj henc).symm
  obtain ⟨dLen, hdLen, rfl⟩ := encodeAmf3Utf8VR_true_inv hdval
  obtain ⟨pjLen, hpjLen, rfl⟩ := encodeAmf3Utf8VR_true_inv hinner
  obtain rfl : dataKeyE = [9, 100, 97, 116, 97] := by
    rw [show encodeAmf3Utf8VR dataKeyBytes false = .ok [9, 100, 97, 116, 97]
      from rfl] at hdkey
    exact (Except.ok.inj hdkey).symm
  have hnl : nameLen.length = 2 := toBytesBE_ok_length hname
  have hbl : bodyLen.length = 4 := toBytesBE_ok_length hblen
  set pj : Bytes := jsonDumps p with hpjdef
  set soName : Bytes := lastSegment ek with hsodef
  set innerB : Bytes := 0x06 :: (pjLen ++ pj) with hinnerdef
  set dataB64 : Bytes := b64encode (zlibCompress innerB) with hdbdef
  set preD : Bytes := [0x00, 0xBF] ++ bodyLen ++
    (strBytes "TCSO" ++ [0x00, 0x04] ++ [0x00, 0x00, 0x00, 0x00] ++ nameLen ++
      soName ++ [0x00, 0x00, 0x00, 0x03] ++ [0x05, 0x75, 0x64, 0x0A, 0x0B, 0x01] ++
      [9, 100, 97, 116, 97]) with hpreDdef
  set sufD : Bytes := glevelKeyE ++ [0x04] ++ glevelE ++ gcashKeyE ++ [0x04] ++
    gcashE ++ gxpKeyE ++ [0x04] ++ gxpE ++ gnumKeyE ++ [0x04] ++ gnumE ++
    [0x01, 0x00] with hsufDdef
  set raw0 : Bytes := [0x00, 0xBF] ++ bodyLen ++
    (strBytes "TCSO" ++ [0x00, 0x04] ++ [0x00, 0x00, 0x00, 0x00] ++ nameLen ++
      soName ++ [0x00, 0x00, 0x00, 0x03] ++ [0x05, 0x75, 0x64, 0x0A, 0x0B, 0x01] ++
      [9, 100, 97, 116, 97] ++ (0x06 :: (dLen ++ dataB64)) ++ glevelKeyE ++
      [0x04] ++ glevelE ++ gcashKeyE ++ [0x04] ++ gcashE ++ gxpKeyE ++ [0x04] ++
      gxpE ++ gnumKeyE ++ [0x04] ++ gnumE ++ [0x01, 0x00]) with hraw0def
  have hsplit : raw0 = preD ++ (0x06 :: (dLen ++ dataB64)) ++ sufD := by
    rw [hraw0def, hpreDdef, hsufDdef]
    simp [List.append_assoc]
  have hpreDlen : preD.length = 29 + soName.length + 4 := by
    rw [hpreDdef]
    simp only [List.length_append, List.length_cons, List.length_nil, hnl, hbl,
      show (strBytes "TCSO").length = 4 from rfl]
    omega
  have hrawdec : b64decode (b64encode raw0) = some raw0 := hB raw0
  have hstr : decodeAmf3String raw0 (29 + soName.length + 4)
      = .ok (dataB64, preD.length + 1 + dLen.length + dataB64.length) := by
    rw [hsplit, ← hpreDlen]
    exact decodeAmf3String_at dataB64 dLen preD sufD hdLen
  have hinnerdec : decodeAmf3String innerB 0
      = .ok (pj, 0 + 1 + pjLen.length + pj.length) := by
    have h := decodeAmf3String_at pj pjLen [] [] hpjLen
    simpa [hinnerdef] using h
  have hJ2 : jsonLoads pj = some p := by rw [hpjdef]; exact hJ
  have hdb2 : b64decode dataB64 = some (zlibCompress innerB) := by
    rw [hdbdef]
    exact hB _
  have hz2 : zlibDecompress (zlibCompress innerB) = some innerB := hZ _
  have htrail : raw0 = ([0x00, 0xBF] ++ bodyLen ++
      (strBytes "TCSO" ++ [0x00, 0x04] ++ [0x00, 0x00, 0x00, 0x00] ++ nameLen ++
        soName ++ [0x00, 0x00, 0x00, 0x03] ++ [0x05, 0x75, 0x64, 0x0A, 0x0B, 0x01] ++
        [9, 100, 97, 116, 97] ++ (0x06 :: (dLen ++ dataB64)) ++ glevelKeyE ++
        [0x04] ++ glevelE ++ gcashKeyE ++ [0x04] ++ gcashE ++ gxpKeyE ++ [0x04] ++
        gxpE ++ gnumKeyE ++ [0x04] ++ gnumE)) ++ [0x01, 0x00] := by
    rw [hraw0def]
    simp [List.append_assoc]
  obtain ⟨Y, hY⟩ : ∃ Y, raw0 = Y ++ [0x01, 0x00] := ⟨_, htrail⟩
  obtain ⟨r1, h1⟩ := parseAmf3IntAfterKey_ok_of_trailer Y glevelKeyBytes
  obtain ⟨r2, h2⟩ := parseAmf3IntAfterKey_ok_of_trailer Y gcashKeyBytes
  obtain ⟨r3, h3⟩ := parseAmf3IntAfterKey_ok_of_trailer Y gxpKeyBytes
  obtain ⟨r4, h4⟩ := parseAmf3IntAfterKey_ok_of_trailer Y gnumKeyBytes
  rw [← hY] at h1 h2 h3 h4
  rw [decodeSolEntry, hrawdec]
  simp only [liftValueErr, ok_bind, extractOuterDataString, hfind raw0 hrawdec,
    hstr, hdb2, hz2, hJ2, liftZlibErr, hinnerdec, h1, h2, h3, h4, pure_eq_ok]
  exact ⟨_, rfl, rfl⟩

end RebuildTheorems

/-! ## Claim C2 -/

/-- Counterexample to C2 as stated, in three parts, one per clause of the
    claim. **Bypass** (conjuncts 1-4): an entry whose raw bytes decode to
    the profile `7` while the entry's (edited) profile is `8` — but the
    profile is not a JSON object (`isinstance(profile, dict)` is false), so
    the guard at line 209 of `encode_decoded_saves.py` never runs: without
    `apply-edits` the stale raw bytes are returned silently as lossless
    instead of raising `UnappliedEditError`, and even with `apply-edits` no
    rebuild happens. **Rebuild failure** (conjuncts 5-7): an entry whose
    dict profile differs from the raw decode carries a `null` outer
    `glevel`; with `apply-edits` the rebuild does not succeed — line 64
    applies `int()` to the field and raises (`int(None)` is a `TypeError`)
    instead of returning a rebuilt blob. **Re-decode failure** (conjuncts
    8-12): an edited entry under the key `"data"`: the rebuild succeeds,
    producing a container that stores `"data"` as the object name at
    offset 18, before the canonical data key at `29 + len(name) = 33`; the
    decoder's first-occurrence scan finds the name, reads byte `0x00` where
    a string marker is required, and re-decoding the rebuilt output raises
    instead of reproducing the edited profile `8`. -/
theorem edit_guard_counterexample :
    extractProfileFromRaw (fun s : Bytes => some s) (fun s : Bytes => some s)
        (fun s : Bytes => if s = [53] then some (some (7 : Int)) else none)
        [100, 97, 116, 97, 6, 7, 6, 3, 53]
      = .ok (some (7 : Int), ⟨none, none, none, none⟩) ∧
    (fun o : Option Int => o.elim ([] : Bytes) (fun k => [k.toNat]))
        (some (7 : Int)) ≠
      (fun o : Option Int => o.elim ([] : Bytes) (fun k => [k.toNat]))
        (some (8 : Int)) ∧
    extractValueB64 (fun s : Bytes => some s) id (fun s : Bytes => some s) id
        (fun s : Bytes => if s = [53] then some (some (7 : Int)) else none)
        (fun _ : Option Int => ([] : Bytes))
        (fun o : Option Int => o.elim ([] : Bytes) (fun k => [k.toNat]))
        (fun _ : Option Int => false)
        (fun _ : Option Int => (none : Option Int))
        (none : Option Int) (fun k : Int => some k)
        (fun _ _ _ _ : Option Int => (none : Option Int))
        ⟨some [107], some [100, 97, 116, 97, 6, 7, 6, 3, 53], none,
          some (some (8 : Int)), none⟩
        false false
      = .ok ([100, 97, 116, 97, 6, 7, 6, 3, 53], .lossless) ∧
    extractValueB64 (fun s : Bytes => some s) id (fun s : Bytes => some s) id
        (fun s : Bytes => if s = [53] then some (some (7 : Int)) else none)
        (fun _ : Option Int => ([] : Bytes))
        (fun o : Option Int => o.elim ([] : Bytes) (fun k => [k.toNat]))
        (fun _ : Option Int => false)
        (fun _ : Option Int => (none : Option Int))
        (none : Option Int) (fun k : Int => some k)
        (fun _ _ _ _ : Option Int => (none : Option Int))
        ⟨some [107], some [100, 97, 116, 97, 6, 7, 6, 3, 53], none,
          some (some (8 : Int)), none⟩
        false true
      = .ok ([100, 97, 116, 97, 6, 7, 6, 3, 53], .lossless) ∧
    extractProfileFromRaw (fun s : Bytes => some s) (fun s : Bytes => some s)
        (fun s : Bytes => if s = [53] then some (some (8 : Int))
          else if s = [54] then some (some (7 : Int)) else none)
        [100, 97, 116, 97, 6, 7, 6, 3, 54]
      = .ok (some (7 : Int), ⟨none, none, none, none⟩) ∧
    (fun o : Option Int => o.elim ([] : Bytes) (fun k => [k.toNat]))
        (some (7 : Int)) ≠
      (fun o : Option Int => o.elim ([] : Bytes) (fun k => [k.toNat]))
        (some (8 : Int)) ∧
    extractValueB64 (fun s : Bytes => some s) id (fun s : Bytes => some s) id
        (fun s : Bytes => if s = [53] then some (some (8 : Int))
          else if s = [54] then some (some (7 : Int)) else none)
        (fun _ : Option Int => ([53] : Bytes))
        (fun o : Option Int => o.elim ([] : Bytes) (fun k => [k.toNat]))
        (fun _ : Option Int => true)
        (fun o : Option Int => o)
        (none : Option Int) (fun k : Int => some k)
        (fun _ _ _ _ : Option Int => (none : Option Int))
        ⟨some [107], some [100, 97, 116, 97, 6, 7, 6, 3, 54], none,
          some (some (8 : Int)),
          some ⟨some (none : Option Int), none, none, none⟩⟩
        false true
      = .error (.otherError "int() argument conversion failed") ∧
    encodeSolEntry id id (fun _ : Option Int => ([53] : Bytes))
        (fun o : Option Int => o) [100, 97, 116, 97] (some (8 : Int))
        ⟨none, none, none, none⟩
      = .ok [0, 191, 0, 0, 0, 68, 84, 67, 83, 79, 0, 4, 0, 0, 0, 0, 0, 4,
          100, 97, 116, 97, 0, 0, 0, 3, 5, 117, 100, 10, 11, 1, 9, 100, 97,
          116, 97, 6, 7, 6, 3, 53, 13, 103, 108, 101, 118, 101, 108, 4, 0,
          11, 103, 99, 97, 115, 104, 4, 0, 7, 103, 120, 112, 4, 0, 9, 103,
          110, 117, 109, 4, 0, 1, 0] ∧
    extractValueB64 (fun s : Bytes => some s) id (fun s : Bytes => some s) id
        (fun s : Bytes => if s = [53] then some (some (8 : Int))
          else if s = [54] then some (some (7 : Int)) else none)
        (fun _ : Option Int => ([53] : Bytes))
        (fun o : Option Int => o.elim ([] : Bytes) (fun k => [k.toNat]))
        (fun _ : Option Int => true)
        (fun o : Option Int => o)
        (none : Option Int) (fun k : Int => some k)
        (fun _ _ _ _ : Option Int => (none : Option Int))
        ⟨some [100, 97, 116, 97], some [100, 97, 116, 97, 6, 7, 6, 3, 54],
          none, some (some (8 : Int)), none⟩
        false true
      = .ok ([0, 191, 0, 0, 0, 68, 84, 67, 83, 79, 0, 4, 0, 0, 0, 0, 0, 4,
          100, 97, 116, 97, 0, 0, 0, 3, 5, 117, 100, 10, 11, 1, 9, 100, 97,
          116, 97, 6, 7, 6, 3, 53, 13, 103, 108, 101, 118, 101, 108, 4, 0,
          11, 103, 99, 97, 115, 104, 4, 0, 7, 103, 120, 112, 4, 0, 9, 103,
          110, 117, 109, 4, 0, 1, 0], .rebuilt_from_edits) ∧
    bFind [0, 191, 0, 0, 0, 68, 84, 67, 83, 79, 0, 4, 0, 0, 0, 0, 0, 4,
          100, 97, 116, 97, 0, 0, 0, 3, 5, 117, 100, 10, 11, 1, 9, 100, 97,
          116, 97, 6, 7, 6, 3, 53, 13, 103, 108, 101, 118, 101, 108, 4, 0,
          11, 103, 99, 97, 115, 104, 4, 0, 7, 103, 120, 112, 4, 0, 9, 103,
          110, 117, 109, 4, 0, 1, 0] dataKeyBytes
      = some 18 ∧
    (18 : Nat) ≠ 29 + (lastSegment [100, 97, 116, 97]).length ∧
    decodeSolEntry (fun s : Bytes => some s) (fun s : Bytes => some s)
        (fun s : Bytes => if s = [53] then some (some (8 : Int))
          else if s = [54] then some (some (7 : Int)) else none)
        (fun _ : Bytes => ([] : Bytes)) [120]
        [0, 191, 0, 0, 0, 68, 84, 67, 83, 79, 0, 4, 0, 0, 0, 0, 0, 4,
          100, 97, 116, 97, 0, 0, 0, 3, 5, 117, 100, 10, 11, 1, 9, 100, 97,
          116, 97, 6, 7, 6, 3, 53, 13, 103, 108, 101, 118, 101, 108, 4, 0,
          11, 103, 99, 97, 115, 104, 4, 0, 7, 103, 120, 112, 4, 0, 9, 103,
          110, 117, 109, 4, 0, 1, 0]
      = .error (.valueError "Expected AMF3 string marker 0x06") := by
  refine ⟨rfl, by decide, rfl, rfl, rfl, by decide, rfl, rfl, rfl, rfl,
    by decide, rfl⟩

section GuardTheoremsTwo

variable {J : Type}
variable (b64decode : Bytes → Option Bytes)
variable (b64encode : Bytes → Bytes)
variable (zlibDecompress : Bytes → Option Bytes)
variable (zlibCompress : Bytes → Bytes)
variable (jsonLoads : Bytes → Option J)
variable (jsonDumps : J → Bytes)
variable (normJson : J → Bytes)
variable (isDict : J → Bool)
variable (pyToInt : J → Option Int)
variable (jNull : J)
variable (jInt : Int → J)
variable (jOuterDict : J → J → J → J → J)
variable (sha256hex : Bytes → Bytes)

/-- **C2 (amended).** For every entry with raw bytes present whose profile
    **is a JSON object**: a profile differing (by normalized JSON) from the
    raw decode fails without `apply-edits` with the `UnappliedEditError`
    naming `--apply-edits`; so does a matching profile with a present
    `outer_ud_fields` object whose four fields differ; with `apply-edits`
    the result is exactly that of rebuilding from the edited fields — which
    can itself raise, e.g. on a `null` outer field (counterexample part 2);
    and when the rebuild succeeds, the stdlib round-trips hold, and the
    `data` key scan of the rebuilt bytes lands on its canonical position
    `29 + len(name)` — a condition that fails when the entry key's final
    segment contains `"data"` (counterexample part 3) — re-decoding the
    rebuilt output reproduces the edited profile. The four integer key
    scans need no such condition: they are proved never to raise on
    rebuilt bytes. -/
theorem edit_guard_amended (entry : EncEntry J) (v : Bytes) (p : J)
    (allow_rebuild : Bool)
    (hraw : entry.raw_sol_value_b64 = some v) (hv : v ≠ [])
    (hp : entry.profile = some p) (hdict : isDict p = true) :
    (∀ rawP rawO,
      extractProfileFromRaw b64decode zlibDecompress jsonLoads v
        = .ok (rawP, rawO) →
      normJson rawP ≠ normJson p →
      extractValueB64 b64decode b64encode zlibDecompress zlibCompress
        jsonLoads jsonDumps normJson isDict pyToInt jNull jInt jOuterDict
        entry allow_rebuild false
        = .error (.valueError "Entry profile differs from raw SOL payload. Use --apply-edits to rebuild from edited decoded JSON.")) ∧
    (∀ rawP rawO o,
      extractProfileFromRaw b64decode zlibDecompress jsonLoads v
        = .ok (rawP, rawO) →
      normJson rawP = normJson p →
      entry.outer_ud_fields = some o →
      normJson (outerIntsJ jNull jInt jOuterDict rawO) ≠
        normJson (outerCmpJ jNull jOuterDict o) →
      extractValueB64 b64decode b64encode zlibDecompress zlibCompress
        jsonLoads jsonDumps normJson isDict pyToInt jNull jInt jOuterDict
        entry allow_rebuild false
        = .error (.valueError "Entry outer_ud_fields differ from raw SOL payload. Use --apply-edits to rebuild from edited decoded JSON.")) ∧
    (∀ k, entry.entry_key = some k →
      extractValueB64 b64decode b64encode zlibDecompress zlibCompress
        jsonLoads jsonDumps normJson isDict pyToInt jNull jInt jOuterDict
        entry allow_rebuild true
        = (encodeSolEntry b64encode zlibCompress jsonDumps pyToInt k p
            (entry.outer_ud_fields.getD ⟨none, none, none, none⟩)).map
          (fun b => (b, EncodeMode.rebuilt_from_edits))) ∧
    (∀ k k2 out, entry.entry_key = some k →
      encodeSolEntry b64encode zlibCompress jsonDumps pyToInt k p
        (entry.outer_ud_fields.getD ⟨none, none, none, none⟩) = .ok out →
      (∀ x, b64decode (b64encode x) = some x) →
      (∀ x, zlibDecompress (zlibCompress x) = some x) →
      jsonLoads (jsonDumps p) = some p →
      (∀ raw, b64decode out = some raw →
        bFind raw dataKeyBytes = some (29 + (lastSegment k).length)) →
      ∃ d', decodeSolEntry b64decode zlibDecompress jsonLoads sha256hex
          k2 out = .ok d' ∧ d'.profile = p) := by
  refine ⟨?_, ?_, ?_, ?_⟩
  · intro rawP rawO hx hne
    simp only [extractValueB64, hraw]
    rw [if_pos hv]
    simp only [hp]
    rw [if_neg (by simp : ¬((false && isDict p) = true)), if_pos hdict]
    simp only [hx]
    rw [if_pos hne]
  · intro rawP rawO o hx heq ho hone
    simp only [extractValueB64, hraw]
    rw [if_pos hv]
    simp only [hp]
    rw [if_neg (by simp : ¬((false && isDict p) = true)), if_pos hdict]
    simp only [hx]
    rw [if_neg (not_not_intro heq)]
    simp only [ho]
    rw [if_pos hone]
  · intro k hk
    simp only [extractValueB64, hraw]
    rw [if_pos hv]
    simp only [hp]
    rw [if_pos (by rw [hdict]; rfl : (true && isDict p) = true)]
    simp only [hk]
  · intro k k2 out _hk henc hB hZ hJ hfind
    exact decodeSolEntry_of_rebuilt b64decode b64encode zlibDecompress
      zlibCompress jsonLoads jsonDumps pyToInt sha256hex hB hZ hJ henc
      hfind

end GuardTheoremsTwo

/-- Witness for the amended C2, at a concrete nine-byte raw blob whose
    decoded profile `7` differs from the entry's edited profile `8`: the
    no-flag encode raises the `UnappliedEditError`, the flagged encode
    rebuilds, and re-decoding the 71-byte rebuilt container recovers the
    edited profile. -/
theorem edit_guard_amended_witness :
    ((⟨some [107], some [100, 97, 116, 97, 6, 7, 6, 3, 54], none,
        some (some (8 : Int)), none⟩ : EncEntry (Option Int)).raw_sol_value_b64
      = some [100, 97, 116, 97, 6, 7, 6, 3, 54]) ∧
    ([100, 97, 116, 97, 6, 7, 6, 3, 54] : Bytes) ≠ [] ∧
    (fun _ : Option Int => true) (some (8 : Int)) = true ∧
    extractProfileFromRaw (fun s : Bytes => some s) (fun s : Bytes => some s)
        (fun s : Bytes => if s = [53] then some (some (8 : Int))
          else if s = [54] then some (some (7 : Int)) else none)
        [100, 97, 116, 97, 6, 7, 6, 3, 54]
      = .ok (some (7 : Int), ⟨none, none, none, none⟩) ∧
    extractValueB64 (fun s : Bytes => some s) id (fun s : Bytes => some s) id
        (fun s : Bytes => if s = [53] then some (some (8 : Int))
          else if s = [54] then some (some (7 : Int)) else none)
        (fun _ : Option Int => ([53] : Bytes))
        (fun o : Option Int => o.elim ([] : Bytes) (fun k => [k.toNat]))
        (fun _ : Option Int => true)
        (fun _ : Option Int => some (1 : Int))
        (none : Option Int) (fun k : Int => some k)
        (fun _ _ _ _ : Option Int => (none : Option Int))
        ⟨some [107], some [100, 97, 116, 97, 6, 7, 6, 3, 54], none,
          some (some (8 : Int)), none⟩
        false false
      = .error (.valueError "Entry profile differs from raw SOL payload. Use --apply-edits to rebuild from edited decoded JSON.") ∧
    extractValueB64 (fun s : Bytes => some s) id (fun s : Bytes => some s) id
        (fun s : Bytes => if s = [53] then some (some (8 : Int))
          else if s = [54] then some (some (7 : Int)) else none)
        (fun _ : Option Int => ([53] : Bytes))
        (fun o : Option Int => o.elim ([] : Bytes) (fun k => [k.toNat]))
        (fun _ : Option Int => true)
        (fun _ : Option Int => some (1 : Int))
        (none : Option Int) (fun k : Int => some k)
        (fun _ _ _ _ : Option Int => (none : Option Int))
        ⟨some [107], some [100, 97, 116, 97, 6, 7, 6, 3, 54], none,
          some (some (8 : Int)), none⟩
        false true
      = (encodeSolEntry id id (fun _ : Option Int => ([53] : Bytes))
          (fun _ : Option Int => some (1 : Int)) [107] (some (8 : Int))
          ⟨none, none, none, none⟩).map
        (fun b => (b, EncodeMode.rebuilt_from_edits)) ∧
    encodeSolEntry id id (fun _ : Option Int => ([53] : Bytes))
        (fun _ : Option Int => some (1 : Int)) [107] (some (8 : Int))
        ⟨none, none, none, none⟩
      = .ok [0, 191, 0, 0, 0, 65, 84, 67, 83, 79, 0, 4, 0, 0, 0, 0, 0, 1,
          107, 0, 0, 0, 3, 5, 117, 100, 10, 11, 1, 9, 100, 97, 116, 97, 6,
          7, 6, 3, 53, 13, 103, 108, 101, 118, 101, 108, 4, 0, 11, 103, 99,
          97, 115, 104, 4, 0, 7, 103, 120, 112, 4, 0, 9, 103, 110, 117,
          109, 4, 0, 1, 0] ∧
    (∃ d', decodeSolEntry (fun s : Bytes => some s) (fun s : Bytes => some s)
        (fun s : Bytes => if s = [53] then some (some (8 : Int))
          else if s = [54] then some (some (7 : Int)) else none)
        (fun _ : Bytes => ([] : Bytes)) [120]
        [0, 191, 0, 0, 0, 65, 84, 67, 83, 79, 0, 4, 0, 0, 0, 0, 0, 1,
          107, 0, 0, 0, 3, 5, 117, 100, 10, 11, 1, 9, 100, 97, 116, 97, 6,
          7, 6, 3, 53, 13, 103, 108, 101, 118, 101, 108, 4, 0, 11, 103, 99,
          97, 115, 104, 4, 0, 7, 103, 120, 112, 4, 0, 9, 103, 110, 117,
          109, 4, 0, 1, 0]
        = .ok d' ∧ d'.profile = some (8 : Int)) := by
  have hthm := edit_guard_amended (fun s : Bytes => some s) id
    (fun s : Bytes => some s) id
    (fun s : Bytes => if s = [53] then some (some (8 : Int))
      else if s = [54] then some (some (7 : Int)) else none)
    (fun _ : Option Int => ([53] : Bytes))
    (fun o : Option Int => o.elim ([] : Bytes) (fun k => [k.toNat]))
    (fun _ : Option Int => true)
    (fun _ : Option Int => some (1 : Int))
    (none : Option Int) (fun k : Int => some k)
    (fun _ _ _ _ : Option Int => (none : Option Int))
    (fun _ : Bytes => ([] : Bytes))
    ⟨some [107], some [100, 97, 116, 97, 6, 7, 6, 3, 54], none,
      some (some (8 : Int)), none⟩
    [100, 97, 116, 97, 6, 7, 6, 3, 54] (some (8 : Int)) false
    rfl (by decide) rfl rfl
  refine ⟨rfl, by decide, rfl, rfl, ?_, ?_, rfl, ?_⟩
  · exact hthm.1 (some (7 : Int)) ⟨none, none, none, none⟩ rfl (by decide)
  · exact hthm.2.2.1 [107] rfl
  · refine hthm.2.2.2 [107] [120] _ rfl rfl (fun x => rfl) (fun x => rfl)
      rfl ?_
    intro raw hr
    obtain rfl : _ = raw := Option.some.inj hr
    decide

section GuardTheoremsThree

variable {J : Type}
variable (b64decode : Bytes → Option Bytes)
variable (b64encode : Bytes → Bytes)
variable (zlibDecompress : Bytes → Option Bytes)
variable (zlibCompress : Bytes → Bytes)
variable (jsonLoads : Bytes → Option J)
variable (jsonDumps : J → Bytes)
variable (normJson : J → Bytes)
variable (isDict : J → Bool)
variable (pyToInt : J → Option Int)
variable (jNull : J)
variable (jInt : Int → J)
variable (jOuterDict : J → J → J → J → J)

/-! ## Claim C7 -/

/-- **C7.** An entry with no raw SOL bytes and no top-level `value_b64`
    fails without the `--allow-rebuild` flag with the
    `MissingRawBytesError`; with the flag, the rebuild requires a string
    `entry_key` and an object `profile` (failing otherwise), invokes the
    Encoder, and is reported under the `rebuilt` mode. -/
theorem missing_raw_bytes_paths (entry : EncEntry J) (apply_edits : Bool)
    (hraw : entry.raw_sol_value_b64 = none)
    (htop : entry.value_b64 = none) :
    (extractValueB64 b64decode b64encode zlibDecompress zlibCompress
        jsonLoads jsonDumps normJson isDict pyToInt jNull jInt jOuterDict
        entry false apply_edits
      = .error (.valueError "Entry is missing raw_sol.value_b64; cannot perform lossless encode. Re-decode with scripts/decode_saves.py or use --allow-rebuild.")) ∧
    (∀ k p, entry.entry_key = some k → entry.profile = some p →
      isDict p = true →
      extractValueB64 b64decode b64encode zlibDecompress zlibCompress
        jsonLoads jsonDumps normJson isDict pyToInt jNull jInt jOuterDict
        entry true apply_edits
      = (encodeSolEntry b64encode zlibCompress jsonDumps pyToInt k p
          (entry.outer_ud_fields.getD ⟨none, none, none, none⟩)).map
        (fun b => (b, EncodeMode.rebuilt))) ∧
    (entry.entry_key = none →
      extractValueB64 b64decode b64encode zlibDecompress zlibCompress
        jsonLoads jsonDumps normJson isDict pyToInt jNull jInt jOuterDict
        entry true apply_edits
      = .error (.valueError "Legacy rebuild requires entry_key and profile fields")) ∧
    (entry.profile = none →
      extractValueB64 b64decode b64encode zlibDecompress zlibCompress
        jsonLoads jsonDumps normJson isDict pyToInt jNull jInt jOuterDict
        entry true apply_edits
      = .error (.valueError "Legacy rebuild requires entry_key and profile fields")) ∧
    (∀ p, entry.profile = some p → isDict p = false →
      extractValueB64 b64decode b64encode zlibDecompress zlibCompress
        jsonLoads jsonDumps normJson isDict pyToInt jNull jInt jOuterDict
        entry true apply_edits
      = .error (.valueError "Legacy rebuild requires entry_key and profile fields")) := by
  refine ⟨?_, ?_, ?_, ?_, ?_⟩
  · simp only [extractValueB64, hraw, extractTopLevel, htop, extractMissingRaw]
    rw [if_pos trivial]
  · intro k p hk hp hdict
    simp only [extractValueB64, hraw, extractTopLevel, htop, extractMissingRaw]
    rw [if_neg (by simp)]
    simp only [hk, hp]
    rw [if_pos hdict]
  · intro hk
    simp only [extractValueB64, hraw, extractTopLevel, htop, extractMissingRaw]
    rw [if_neg (by simp)]
    simp only [hk]
  · intro hp
    simp only [extractValueB64, hraw, extractTopLevel, htop, extractMissingRaw]
    rw [if_neg (by simp)]
    simp only [hp]
    cases hk : entry.entry_key <;> simp
  · intro p hp hdict
    simp only [extractValueB64, hraw, extractTopLevel, htop, extractMissingRaw]
    rw [if_neg (by simp)]
    simp only [hp]
    cases hk : entry.entry_key with
    | none => rfl
    | some k => simp [hdict]

/-! ## Claim C9 -/

/-- **C9.** An entry with no `raw_sol` object but a non-empty top-level
    `value_b64` string has that string emitted verbatim under the lossless
    mode, with no integrity comparison and no opt-in flag required (the
    result is the same for every combination of flags, profile and outer
    fields). -/
theorem top_level_value_passthrough (entry : EncEntry J) (v2 : Bytes)
    (allow_rebuild apply_edits : Bool)
    (hraw : entry.raw_sol_value_b64 = none)
    (htop : entry.value_b64 = some v2) (hne : v2 ≠ []) :
    extractValueB64 b64decode b64encode zlibDecompress zlibCompress
      jsonLoads jsonDumps normJson isDict pyToInt jNull jInt jOuterDict
      entry allow_rebuild apply_edits = .ok (v2, .lossless) := by
  simp only [extractValueB64, hraw, extractTopLevel, htop]
  rw [if_pos hne]

/-! ## Claim C8 -/

/-- **C8.** A successful encoder invocation emits, inside the standard
    header (`TCSO` magic, version, reserved bytes, name length prefix and
    the name — the final path segment of `entry_key` — and the fixed class
    descriptor), the object body in the fixed canonical order: `data` as a
    marked AMF3 string, then `glevel, gcash, gxp, gnum` each as an unmarked
    key string, tag `0x04` and a signed AMF3 integer, then the
    end-of-dynamic-members marker `[0x01, 0x00]`; an absent outer field
    contributes the integer `0`. -/
theorem encoder_canonical_layout (ek : Bytes) (p : J) (outer : EncOuter J)
    (gl gc gx gn : Int)
    (inner dataValE glevelE gcashE gxpE gnumE nameLen bodyLen : Bytes)
    (hgl : pyIntOfField pyToInt outer.glevel = .ok gl)
    (hgc : pyIntOfField pyToInt outer.gcash = .ok gc)
    (hgx : pyIntOfField pyToInt outer.gxp = .ok gx)
    (hgn : pyIntOfField pyToInt outer.gnum = .ok gn)
    (hinner : encodeAmf3Utf8VR (jsonDumps p) true = .ok inner)
    (hdval : encodeAmf3Utf8VR (b64encode (zlibCompress inner)) true
      = .ok dataValE)
    (hglE : encodeAmf3Int gl = .ok glevelE)
    (hgcE : encodeAmf3Int gc = .ok gcashE)
    (hgxE : encodeAmf3Int gx = .ok gxpE)
    (hgnE : encodeAmf3Int gn = .ok gnumE)
    (hname : toBytesBE (lastSegment ek).length 2 = .ok nameLen)
    (hblen : toBytesBE (strBytes "TCSO" ++ [0x00, 0x04] ++
        [0x00, 0x00, 0x00, 0x00] ++ nameLen ++ lastSegment ek ++
        [0x00, 0x00, 0x00, 0x03] ++ [0x05, 0x75, 0x64, 0x0A, 0x0B, 0x01] ++
        [9, 100, 97, 116, 97] ++ dataValE ++
        [13, 103, 108, 101, 118, 101, 108] ++ [0x04] ++ glevelE ++
        [11, 103, 99, 97, 115, 104] ++ [0x04] ++ gcashE ++
        [7, 103, 120, 112] ++ [0x04] ++ gxpE ++
        [9, 103, 110, 117, 109] ++ [0x04] ++ gnumE ++ [0x01, 0x00]).length 4
      = .ok bodyLen) :
    encodeSolEntry b64encode zlibCompress jsonDumps pyToInt ek p outer
      = .ok (b64encode ([0x00, 0xBF] ++ bodyLen ++
        (strBytes "TCSO" ++ [0x00, 0x04] ++ [0x00, 0x00, 0x00, 0x00] ++
        nameLen ++ lastSegment ek ++ [0x00, 0x00, 0x00, 0x03] ++
        [0x05, 0x75, 0x64, 0x0A, 0x0B, 0x01] ++
        [9, 100, 97, 116, 97] ++ dataValE ++
        [13, 103, 108, 101, 118, 101, 108] ++ [0x04] ++ glevelE ++
        [11, 103, 99, 97, 115, 104] ++ [0x04] ++ gcashE ++
        [7, 103, 120, 112] ++ [0x04] ++ gxpE ++
        [9, 103, 110, 117, 109] ++ [0x04] ++ gnumE ++ [0x01, 0x00]))) ∧
    pyIntOfField pyToInt none = .ok 0 := by
  refine ⟨?_, rfl⟩
  rw [encodeSolEntry]
  simp only [hinner, ok_bind, hgl, hgc, hgx, hgn, hname,
    show encodeAmf3Utf8VR dataKeyBytes false = .ok [9, 100, 97, 116, 97]
      from rfl,
    hdval,
    show encodeAmf3Utf8VR glevelKeyBytes false
      = .ok [13, 103, 108, 101, 118, 101, 108] from rfl,
    hglE,
    show encodeAmf3Utf8VR gcashKeyBytes false
      = .ok [11, 103, 99, 97, 115, 104] from rfl,
    hgcE,
    show encodeAmf3Utf8VR gxpKeyBytes false = .ok [7, 103, 120, 112]
      from rfl,
    hgxE,
    show encodeAmf3Utf8VR gnumKeyBytes false = .ok [9, 103, 110, 117, 109]
      from rfl,
    hgnE, hblen, pure_eq_ok]

end GuardTheoremsThree

/-- Witness for C7: an entry with key `"k"`, profile, and no raw bytes fails
    without the flag, rebuilds under the flag; an entry with no string
    `entry_key` fails the legacy requirement. -/
theorem missing_raw_bytes_paths_witness :
    ((⟨some [107], none, none, some (some (3 : Int)), none⟩ :
        EncEntry (Option Int)).raw_sol_value_b64 = none) ∧
    ((⟨some [107], none, none, some (some (3 : Int)), none⟩ :
        EncEntry (Option Int)).value_b64 = none) ∧
    extractValueB64 (fun s : Bytes => some s) id (fun s : Bytes => some s) id
        (fun _ : Bytes => some (none : Option Int))
        (fun _ : Option Int => ([53] : Bytes))
        (fun _ : Option Int => ([] : Bytes)) (fun _ : Option Int => true)
        (fun _ : Option Int => some (1 : Int)) (none : Option Int)
        (fun k : Int => some k)
        (fun _ _ _ _ : Option Int => (none : Option Int))
        ⟨some [107], none, none, some (some (3 : Int)), none⟩ false false
      = .error (.valueError "Entry is missing raw_sol.value_b64; cannot perform lossless encode. Re-decode with scripts/decode_saves.py or use --allow-rebuild.") ∧
    extractValueB64 (fun s : Bytes => some s) id (fun s : Bytes => some s) id
        (fun _ : Bytes => some (none : Option Int))
        (fun _ : Option Int => ([53] : Bytes))
        (fun _ : Option Int => ([] : Bytes)) (fun _ : Option Int => true)
        (fun _ : Option Int => some (1 : Int)) (none : Option Int)
        (fun k : Int => some k)
        (fun _ _ _ _ : Option Int => (none : Option Int))
        ⟨some [107], none, none, some (some (3 : Int)), none⟩ true false
      = (encodeSolEntry id id (fun _ : Option Int => ([53] : Bytes))
          (fun _ : Option Int => some (1 : Int)) [107] (some (3 : Int))
          ⟨none, none, none, none⟩).map (fun b => (b, EncodeMode.rebuilt)) ∧
    extractValueB64 (fun s : Bytes => some s) id (fun s : Bytes => some s) id
        (fun _ : Bytes => some (none : Option Int))
        (fun _ : Option Int => ([53] : Bytes))
        (fun _ : Option Int => ([] : Bytes)) (fun _ : Option Int => true)
        (fun _ : Option Int => some (1 : Int)) (none : Option Int)
        (fun k : Int => some k)
        (fun _ _ _ _ : Option Int => (none : Option Int))
        ⟨none, none, none, some (some (3 : Int)), none⟩ true false
      = .error (.valueError "Legacy rebuild requires entry_key and profile fields") := by
  have hA := missing_raw_bytes_paths (fun s : Bytes => some s) id
    (fun s : Bytes => some s) id (fun _ : Bytes => some (none : Option Int))
    (fun _ : Option Int => ([53] : Bytes)) (fun _ : Option Int => ([] : Bytes))
    (fun _ : Option Int => true) (fun _ : Option Int => some (1 : Int))
    (none : Option Int) (fun k : Int => some k)
    (fun _ _ _ _ : Option Int => (none : Option Int))
    ⟨some [107], none, none, some (some (3 : Int)), none⟩ false rfl rfl
  have hB := missing_raw_bytes_paths (fun s : Bytes => some s) id
    (fun s : Bytes => some s) id (fun _ : Bytes => some (none : Option Int))
    (fun _ : Option Int => ([53] : Bytes)) (fun _ : Option Int => ([] : Bytes))
    (fun _ : Option Int => true) (fun _ : Option Int => some (1 : Int))
    (none : Option Int) (fun k : Int => some k)
    (fun _ _ _ _ : Option Int => (none : Option Int))
    ⟨none, none, none, some (some (3 : Int)), none⟩ false rfl rfl
  exact ⟨rfl, rfl, hA.1, hA.2.1 [107] (some (3 : Int)) rfl rfl rfl,
    hB.2.2.1 rfl⟩

/-- Witness for C9: the top-level string `[65]` is passed through verbatim
    with every flag combination irrelevant. -/
theorem top_level_value_passthrough_witness :
    ((⟨none, none, some [65], some (some (3 : Int)), none⟩ :
        EncEntry (Option Int)).raw_sol_value_b64 = none) ∧
    ((⟨none, none, some [65], some (some (3 : Int)), none⟩ :
        EncEntry (Option Int)).value_b64 = some [65]) ∧
    ([65] : Bytes) ≠ [] ∧
    extractValueB64 (fun s : Bytes => some s) id (fun s : Bytes => some s) id
        (fun _ : Bytes => some (none : Option Int))
        (fun _ : Option Int => ([53] : Bytes))
        (fun _ : Option Int => ([] : Bytes)) (fun _ : Option Int => true)
        (fun _ : Option Int => some (1 : Int)) (none : Option Int)
        (fun k : Int => some k)
        (fun _ _ _ _ : Option Int => (none : Option Int))
        ⟨none, none, some [65], some (some (3 : Int)), none⟩ false true
      = .ok ([65], .lossless) :=
  ⟨rfl, rfl, by decide,
    top_level_value_passthrough (fun s : Bytes => some s) id
      (fun s : Bytes => some s) id (fun _ : Bytes => some (none : Option Int))
      (fun _ : Option Int => ([53] : Bytes)) (fun _ : Option Int => ([] : Bytes))
      (fun _ : Option Int => true) (fun _ : Option Int => some (1 : Int))
      (none : Option Int) (fun k : Int => some k)
      (fun _ _ _ _ : Option Int => (none : Option Int))
      ⟨none, none, some [65], some (some (3 : Int)), none⟩ [65] false true
      rfl rfl (by decide)⟩

/-- Witness for C8: entry key `"k/u"` yields object name `"u"`; `glevel` is
    present as `2`, the other three outer fields are absent and default to
    `0`; the 71-byte output has the canonical layout. -/
theorem encoder_canonical_layout_witness :
    pyIntOfField (fun o : Option Int => o) (some (some (2 : Int))) = .ok 2 ∧
    pyIntOfField (fun o : Option Int => o) none = .ok 0 ∧
    encodeSolEntry id id (fun _ : Option Int => ([53] : Bytes))
        (fun o : Option Int => o) [107, 47, 117] (some (8 : Int))
        ⟨some (some (2 : Int)), none, none, none⟩
      = .ok [0, 191, 0, 0, 0, 65, 84, 67, 83, 79, 0, 4, 0, 0, 0, 0, 0, 1,
          117, 0, 0, 0, 3, 5, 117, 100, 10, 11, 1, 9, 100, 97, 116, 97, 6,
          7, 6, 3, 53, 13, 103, 108, 101, 118, 101, 108, 4, 2, 11, 103, 99,
          97, 115, 104, 4, 0, 7, 103, 120, 112, 4, 0, 9, 103, 110, 117,
          109, 4, 0, 1, 0] := by
  have h := encoder_canonical_layout id id
    (fun _ : Option Int => ([53] : Bytes)) (fun o : Option Int => o)
    [107, 47, 117] (some (8 : Int)) ⟨some (some (2 : Int)), none, none, none⟩
    2 0 0 0 [6, 3, 53] [6, 7, 6, 3, 53] [2] [0] [0] [0] [0, 1] [0, 0, 0, 65]
    rfl rfl rfl rfl rfl rfl rfl rfl rfl rfl rfl rfl
  exact ⟨rfl, h.2, h.1⟩

/-! ## Claim C6 -/

section BatchTheorems

variable {J : Type}
variable (b64decode : Bytes → Option Bytes)
variable (zlibDecompress : Bytes → Option Bytes)
variable (jsonLoads : Bytes → Option J)
variable (sha256hex : Bytes → Bytes)

/-- The non-strict loop never aborts: it returns one output entry per input
    entry (successes as decoded dictionaries, failures as error records)
    and the failure tally. -/
theorem decodeEntriesLoop_nonstrict (entries : List SaveEntry) :
    decodeEntriesLoop b64decode zlibDecompress jsonLoads sha256hex false
        entries
      = .ok (entries.map (fun e =>
          match decodeSolEntry b64decode zlibDecompress jsonLoads sha256hex
              e.key e.value_b64 with
          | .ok d => DecOutEntry.success d e.enabled e.meta
          | .error exc => DecOutEntry.failure e.key e.enabled e.value_b64
              ((b64decode e.value_b64).map List.length) (excMsg exc) e.meta),
        decodeFailureCount b64decode zlibDecompress jsonLoads sha256hex
          entries) := by
  induction entries with
  | nil => rfl
  | cons e rest ih =>
    cases hdec : decodeSolEntry b64decode zlibDecompress jsonLoads sha256hex
        e.key e.value_b64 with
    | ok d =>
      simp only [decodeEntriesLoop, hdec, ih, Except.map, List.map_cons,
        decodeFailureCount, List.filter_cons, isExcOk, Bool.not_true,
        if_false, Bool.false_eq_true]
    | error exc =>
      simp only [decodeEntriesLoop, hdec, ih, Except.map, List.map_cons,
        decodeFailureCount, List.filter_cons, isExcOk, Bool.not_false,
        if_true, List.length_cons, Bool.false_eq_true, if_false]

/-- The strict loop aborts with the first failing entry's exception. -/
theorem decodeEntriesLoop_strict_aborts (pre : List SaveEntry) :
    ∀ (e : SaveEntry) (post : List SaveEntry) (exc : PyExc),
    (∀ e2 ∈ pre, isExcOk (decodeSolEntry b64decode zlibDecompress jsonLoads
      sha256hex e2.key e2.value_b64) = true) →
    decodeSolEntry b64decode zlibDecompress jsonLoads sha256hex
      e.key e.value_b64 = .error exc →
    decodeEntriesLoop b64decode zlibDecompress jsonLoads sha256hex true
      (pre ++ e :: post) = .error exc := by
  induction pre with
  | nil =>
    intro e post exc _ hdec
    simp only [List.nil_append, decodeEntriesLoop, hdec]
    rw [if_pos trivial]
  | cons p pre ih =>
    intro e post exc hpre hdec
    have hp := hpre p (List.mem_cons_self p pre)
    cases hpd : decodeSolEntry b64decode zlibDecompress jsonLoads sha256hex
        p.key p.value_b64 with
    | error e2 => simp [isExcOk, hpd] at hp
    | ok d =>
      have hih := ih e post exc
        (fun e2 h2 => hpre e2 (List.mem_cons_of_mem p h2)) hdec
      simp only [List.cons_append, decodeEntriesLoop, hpd]
      rw [show decodeEntriesLoop b64decode zlibDecompress jsonLoads sha256hex
          true (pre.append (e :: post)) = Except.error exc from hih]
      rfl

/-- **C6 (amended).** For every *non-empty* non-strict batch of `N` loaded
    entries of which `K` fail to decode, the run does not abort: each
    failing entry yields an error record with its key, its raw byte length
    when computable, and the error message; the aggregate reports
    `decoded_entries = N` and `decode_failures = K`; the successes carry
    their decoded data; the exit status is non-zero iff `K > 0`. With
    strict mode, the first failure aborts the run with its exception.
    (The empty batch instead aborts before the loop — see the
    counterexample.) -/
theorem batch_driver_partial_failure (entries : List SaveEntry)
    (hne : entries ≠ []) :
    (runDecodeMain b64decode zlibDecompress jsonLoads sha256hex entries false
      = .ok ⟨entries.length,
          decodeFailureCount b64decode zlibDecompress jsonLoads sha256hex
            entries,
          entries.map (fun e =>
            match decodeSolEntry b64decode zlibDecompress jsonLoads sha256hex
                e.key e.value_b64 with
            | .ok d => DecOutEntry.success d e.enabled e.meta
            | .error exc => DecOutEntry.failure e.key e.enabled e.value_b64
                ((b64decode e.value_b64).map List.length) (excMsg exc) e.meta),
          if decodeFailureCount b64decode zlibDecompress jsonLoads sha256hex
              entries = 0 then 0 else 1⟩) ∧
    ((if decodeFailureCount b64decode zlibDecompress jsonLoads sha256hex
        entries = 0 then 0 else 1) ≠ 0 ↔
      0 < decodeFailureCount b64decode zlibDecompress jsonLoads sha256hex
        entries) ∧
    (∀ pre e post exc, entries = pre ++ e :: post →
      (∀ e2 ∈ pre, isExcOk (decodeSolEntry b64decode zlibDecompress jsonLoads
        sha256hex e2.key e2.value_b64) = true) →
      decodeSolEntry b64decode zlibDecompress jsonLoads sha256hex
        e.key e.value_b64 = .error exc →
      runDecodeMain b64decode zlibDecompress jsonLoads sha256hex entries true
        = .error exc) := by
  have hempty : entries.isEmpty = false := by
    cases entries with
    | nil => exact absurd rfl hne
    | cons e rest => rfl
  refine ⟨?_, ?_, ?_⟩
  · rw [runDecodeMain, hempty]
    rw [decodeEntriesLoop_nonstrict]
    simp only [Bool.false_eq_true, if_false, Except.map, List.length_map]
  · split_ifs with h
    · simp [h]
    · simp
      omega
  · intro pre e post exc hsplit hpre hdec
    rw [runDecodeMain, hempty]
    simp only [Bool.false_eq_true, if_false, hsplit,
      decodeEntriesLoop_strict_aborts b64decode zlibDecompress jsonLoads
        sha256hex pre e post exc hpre hdec, Except.map]

end BatchTheorems

/-- Counterexample to C6 as stated: a batch of `N = 0` loaded entries
    (`K = 0`) does abort — `main` raises `"No save entries found in input"`
    before the loop, so no aggregate document with
    `decoded_entries == 0` and exit status `0` is produced. -/
theorem batch_driver_empty_counterexample :
    runDecodeMain (fun s : Bytes => some s) (fun s : Bytes => some s)
        (fun _ : Bytes => some (none : Option Int)) (fun _ : Bytes => ([] : Bytes))
        [] false
      = .error (.valueError "No save entries found in input") := rfl

/-- Witness for the amended C6: a two-entry batch (one decodable, one with
    undecodable base64) yields `decoded_entries = 2`, `decode_failures = 1`,
    a success record and an error record (with `bytes_length` null since the
    base64 is uncomputable), exit status 1; strict mode aborts with the
    failing entry's exception. -/
theorem batch_driver_partial_failure_witness :
    ([⟨[107], [86], true, none⟩, ⟨[98], [0], true, none⟩] :
      List SaveEntry) ≠ [] ∧
    runDecodeMain
        (fun s : Bytes =>
          if s = [86] then some [100, 97, 116, 97, 6, 3, 65]
          else if s = [65] then some [122]
          else if s = [] then some ([] : Bytes) else none)
        (fun s : Bytes => if s = [122] then some [6, 3, 53] else none)
        (fun s : Bytes => if s = [53] then some (some (5 : Int)) else none)
        (fun _ : Bytes => ([] : Bytes))
        [⟨[107], [86], true, none⟩, ⟨[98], [0], true, none⟩] false
      = .ok ⟨2, 1,
          [DecOutEntry.success
            ⟨[107], ⟨[86], 7, []⟩, ⟨none, none, none, none⟩, ⟨1, 1, 3, 1⟩,
              [53], some (5 : Int)⟩ true none,
           DecOutEntry.failure [98] true [0] none
             "Invalid base64-encoded string" none], 1⟩ ∧
    runDecodeMain
        (fun s : Bytes =>
          if s = [86] then some [100, 97, 116, 97, 6, 3, 65]
          else if s = [65] then some [122]
          else if s = [] then some ([] : Bytes) else none)
        (fun s : Bytes => if s = [122] then some [6, 3, 53] else none)
        (fun s : Bytes => if s = [53] then some (some (5 : Int)) else none)
        (fun _ : Bytes => ([] : Bytes))
        [⟨[107], [86], true, none⟩, ⟨[98], [0], true, none⟩] true
      = .error (.valueError "Invalid base64-encoded string") := by
  have h := batch_driver_partial_failure
    (fun s : Bytes =>
      if s = [86] then some [100, 97, 116, 97, 6, 3, 65]
      else if s = [65] then some [122]
      else if s = [] then some ([] : Bytes) else none)
    (fun s : Bytes => if s = [122] then some [6, 3, 53] else none)
    (fun s : Bytes => if s = [53] then some (some (5 : Int)) else none)
    (fun _ : Bytes => ([] : Bytes))
    [⟨[107], [86], true, none⟩, ⟨[98], [0], true, none⟩]
    (List.cons_ne_nil _ _)
  refine ⟨List.cons_ne_nil _ _, h.1, ?_⟩
  refine h.2.2 [⟨[107], [86], true, none⟩] ⟨[98], [0], true, none⟩ []
    (.valueError "Invalid base64-encoded string") rfl ?_ rfl
  intro e2 h2
  fin_cases h2
  rfl

/-! ## Claim C10 -/

/-- **C10.** The entry loader raises the input-format error exactly when the
    top-level JSON value is not an object; within a save-editor-format
    document whose `entries` value is a list, elements that are not objects,
    or whose `key` or `value_b64` is not a string, are silently skipped, so
    an all-malformed entries list loads as the empty entry list with no
    per-entry error. -/
theorem loader_input_format (payload : JVal) (includeDisabled : Bool) :
    (∀ msg, loadEntries payload includeDisabled = .error (.valueError msg) →
      (∀ kvs, payload ≠ .obj kvs) ∧
      msg = "Input must be a JSON object (export map or editor format)") ∧
    ((∀ kvs, payload ≠ .obj kvs) →
      loadEntries payload includeDisabled
        = .error (.valueError "Input must be a JSON object (export map or editor format)")) ∧
    (∀ kvs xs, payload = .obj kvs → isEditorFormat kvs = true →
      dictGet kvs (strBytes "entries") = some (.arr xs) →
      loadEntries payload includeDisabled
        = .ok ("save_editor", xs.filterMap (loadEditorEntry includeDisabled))) ∧
    (∀ raw, (∀ m, raw ≠ .obj m) →
      loadEditorEntry includeDisabled raw = none) ∧
    (∀ m, (∀ k, dictGet m (strBytes "key") ≠ some (.str k)) ∨
        (∀ v, dictGet m (strBytes "value_b64") ≠ some (.str v)) →
      loadEditorEntry includeDisabled (.obj m) = none) ∧
    (∀ kvs xs, payload = .obj kvs → isEditorFormat kvs = true →
      dictGet kvs (strBytes "entries") = some (.arr xs) →
      (∀ x ∈ xs, loadEditorEntry includeDisabled x = none) →
      loadEntries payload includeDisabled = .ok ("save_editor", [])) := by
  refine ⟨?_, ?_, ?_, ?_, ?_, ?_⟩
  · intro msg h
    cases payload with
    | obj kvs =>
      exfalso
      rw [loadEntries] at h
      by_cases hfmt : isEditorFormat kvs
      · rw [if_pos hfmt] at h
        cases hget : (dictGet kvs (strBytes "entries")).getD (.arr []) <;>
          simp only [hget] at h <;> cases h
      · rw [if_neg hfmt] at h
        cases h
    | null => exact ⟨fun kvs h2 => JVal.noConfusion h2, by cases h; rfl⟩
    | bool b => exact ⟨fun kvs h2 => JVal.noConfusion h2, by cases h; rfl⟩
    | num n => exact ⟨fun kvs h2 => JVal.noConfusion h2, by cases h; rfl⟩
    | str s => exact ⟨fun kvs h2 => JVal.noConfusion h2, by cases h; rfl⟩
    | arr xs => exact ⟨fun kvs h2 => JVal.noConfusion h2, by cases h; rfl⟩
  · intro hno
    cases payload with
    | obj kvs => exact absurd rfl (hno kvs)
    | null => rfl
    | bool b => rfl
    | num n => rfl
    | str s => rfl
    | arr xs => rfl
  · intro kvs xs hp hfmt hget
    subst hp
    rw [loadEntries, if_pos hfmt]
    simp only [hget, Option.getD_some]
  · intro raw hraw
    cases raw with
    | obj m => exact absurd rfl (hraw m)
    | null => rfl
    | bool b => rfl
    | num n => rfl
    | str s => rfl
    | arr xs => rfl
  · intro m hbad
    rw [loadEditorEntry]
    split_ifs with hskip
    · rfl
    · cases hk : dictGet m (strBytes "key") with
      | none => rfl
      | some jk =>
        cases jk <;> try rfl
        next k =>
          cases hv : dictGet m (strBytes "value_b64") with
          | none => rfl
          | some jv =>
            cases jv <;> try rfl
            next v =>
              rcases hbad with hbk | hbv
              · exact absurd hk (hbk k)
              · exact absurd hv (hbv v)
  · intro kvs xs hp hfmt hget hall
    subst hp
    rw [loadEntries, if_pos hfmt]
    simp only [hget, Option.getD_some]
    rw [List.filterMap_eq_nil_iff.mpr hall]

/-- Witness for C10: a non-object document raises the input-format error; an
    editor document whose three entries are all malformed (a number, a
    string, and an object whose `key` is a number) loads as the empty list. -/
theorem loader_input_format_witness :
    ((JVal.num 3) ≠ JVal.obj [] ∧
      loadEntries (JVal.num 3) true
        = .error (.valueError "Input must be a JSON object (export map or editor format)")) ∧
    (isEditorFormat [(strBytes "format", JVal.str editorFormatBytes),
        (strBytes "entries", JVal.arr
          [JVal.num 3, JVal.str [97], JVal.obj [(strBytes "key", JVal.num 1)]])]
      = true ∧
    loadEntries (JVal.obj [(strBytes "format", JVal.str editorFormatBytes),
        (strBytes "entries", JVal.arr
          [JVal.num 3, JVal.str [97], JVal.obj [(strBytes "key", JVal.num 1)]])])
        true
      = .ok ("save_editor", [])) := by
  have h1 := (loader_input_format (JVal.num 3) true).2.1
    (fun kvs h => JVal.noConfusion h)
  have h2 := (loader_input_format
    (JVal.obj [(strBytes "format", JVal.str editorFormatBytes),
      (strBytes "entries", JVal.arr
        [JVal.num 3, JVal.str [97],
         JVal.obj [(strBytes "key", JVal.num 1)]])]) true).2.2.2.2.2
    [(strBytes "format", JVal.str editorFormatBytes),
     (strBytes "entries", JVal.arr
       [JVal.num 3, JVal.str [97], JVal.obj [(strBytes "key", JVal.num 1)]])]
    [JVal.num 3, JVal.str [97], JVal.obj [(strBytes "key", JVal.num 1)]]
    rfl rfl rfl (by intro x hx; fin_cases hx <;> rfl)
  exact ⟨⟨fun h => JVal.noConfusion h, h1⟩, rfl, h2⟩

end BloonsBench
